import Mathlib

/-!
Verification of the heyworkly desktop-automation agent's operator layer.

The definitions below are a shallow embedding of
`apps/ui-tars/src/main/agent/webviewOperator.ts` (the embedded-browser
operator and the local-desktop NutJS operator) and of the agent runner
`runAgent`.  Asynchronous effectful code is modelled as pure functions that
return the list of protocol calls / log lines they would issue (a trace of
`Ev` events), together with the resulting state.  JavaScript numbers are
modelled as rationals, JavaScript strings as Lean strings.
-/

namespace HeyWorkly

/-! ## JavaScript string semantics -/

/-- The JavaScript whitespace characters recognised by `String.prototype.trim`
and the regexp class `\s` (individually listed code points). -/
def jsWhitespaceChars : List Char :=
  [' ', '\t', '\n', '\r', '\u000b', '\u000c', ' ', ' ',
   ' ', ' ', ' ', ' ', '　', '﻿']

/-- Whether `c` is JavaScript whitespace (`\s`). -/
def jsWhitespace (c : Char) : Bool :=
  jsWhitespaceChars.contains c || (0x2000 ≤ c.toNat && c.toNat ≤ 0x200a)

/-- JavaScript `String.prototype.trim`: remove leading and trailing
whitespace. -/
def jsTrim (s : String) : String :=
  ⟨((s.data.dropWhile jsWhitespace).reverse.dropWhile jsWhitespace).reverse⟩

/-- Whether `s` ends with the string `suf` (JS `String.prototype.endsWith`). -/
def strEndsWith (s suf : String) : Bool :=
  suf.data.reverse.isPrefixOf s.data.reverse

/-- Whether `s` starts with the string `p` (JS `String.prototype.startsWith`,
also the anchored regexp tests used in the source). -/
def strStartsWith (s p : String) : Bool :=
  p.data.isPrefixOf s.data

/-- JS `s.replace(/suf$/, '')`: remove one occurrence of `suf` from the end
of `s`, if present. -/
def stripSuffix1 (s suf : String) : String :=
  if strEndsWith s suf then ⟨(s.data.reverse.drop suf.data.length).reverse⟩
  else s

/-- Character-wise ASCII lowercasing (JS `String.prototype.toLowerCase` and
the `i` regexp flag, restricted to the ASCII inputs the source handles). -/
def lowerStr (s : String) : String :=
  ⟨s.data.map Char.toLower⟩

/-! ## WHATWG URL model

`isValidNavigationUrl` in the source calls the host's `new URL(url)`
constructor.  `urlProtocol` models that host facility on the fragment the
operator exercises, following the WHATWG URL Standard: input trimming,
scheme parsing, and — for the special schemes — authority (host and port)
validation.  It returns the parsed protocol (scheme plus `":"`) when the
URL parses, `none` when the constructor would throw. -/

/-- Chars the WHATWG parser strips from the ends of the input
(C0 controls and space). -/
def c0OrSpace (c : Char) : Bool :=
  c.toNat ≤ 0x20

/-- Scheme continuation characters: ASCII alphanumeric, `+`, `-`, `.`. -/
def schemeChar (c : Char) : Bool :=
  c.isAlphanum || c = '+' || c = '-' || c = '.'

/-- Parse `scheme ":"` from the head of the input; the scheme is lowercased.
Returns the scheme's characters and the remainder after the colon. -/
def parseSchemeAux : List Char → List Char → Option (List Char × List Char)
  | _, [] => none
  | acc, c :: cs =>
    if c = ':' then some (acc.reverse, cs)
    else if schemeChar c then parseSchemeAux (c.toLower :: acc) cs
    else none

/-- Parse the scheme of a URL string: one ASCII alpha, then scheme chars,
then a colon. -/
def parseScheme : List Char → Option (List Char × List Char)
  | [] => none
  | c :: cs => if c.isAlpha then parseSchemeAux [c.toLower] cs else none

/-- The WHATWG special schemes. -/
def specialSchemes : List (List Char) :=
  [['h','t','t','p'], ['h','t','t','p','s'], ['w','s'], ['w','s','s'],
   ['f','t','p'], ['f','i','l','e']]

/-- Code points that make a (special-scheme) host invalid. -/
def forbiddenHostChar (c : Char) : Bool :=
  c = '\u0000' || c = ' ' || c = '#' || c = '/' || c = '<' || c = '>' ||
  c = '?' || c = '@' || c = '[' || c = '\\' || c = ']' || c = '^' ||
  c = '|' || c = '%'

/-- A port is valid when it consists of ASCII digits only (possibly empty). -/
def validPort (l : List Char) : Bool :=
  l.all (·.isDigit)

/-- Drop the userinfo part of an authority: keep what follows the last `@`. -/
def dropUserinfo (l : List Char) : List Char :=
  if l.contains '@' then (l.reverse.takeWhile (· ≠ '@')).reverse else l

/-- Validate the host-and-port part of a special-scheme authority. -/
def validHostPort (l : List Char) : Bool :=
  match l with
  | '[' :: rest =>
    let inside := rest.takeWhile (· ≠ ']')
    match rest.dropWhile (· ≠ ']') with
    | ']' :: tail =>
      decide (inside ≠ []) &&
        inside.all (fun c => c.isDigit || ('a' ≤ c.toLower && c.toLower ≤ 'f')
          || c = ':' || c = '.') &&
        (tail.isEmpty || (tail.headD ' ' = ':' && validPort (tail.drop 1)))
    | _ => false
  | _ =>
    let host := l.takeWhile (· ≠ ':')
    let rest := l.dropWhile (· ≠ ':')
    decide (host ≠ []) && host.all (fun c => !forbiddenHostChar c) &&
      (rest.isEmpty || validPort (rest.drop 1))

/-- Model of the host `new URL(s)` constructor (WHATWG URL Standard), as
used by `isValidNavigationUrl`: yields `some protocol` (the lowercased
scheme followed by `":"`) when the string parses as a URL, `none` when the
constructor would throw.  For the special web schemes the authority is
validated (non-empty host, numeric port); other schemes take the remainder
as an opaque path. -/
def urlProtocol (s : String) : Option String :=
  let trimmed :=
    ((s.data.dropWhile c0OrSpace).reverse.dropWhile c0OrSpace).reverse
  let input := trimmed.filter fun c => !(c = '\t' || c = '\n' || c = '\r')
  match parseScheme input with
  | none => none
  | some (scheme, rest) =>
    if scheme ∈ specialSchemes then
      if scheme = ['f','i','l','e'] then some ⟨scheme ++ [':']⟩
      else
        let rest1 := rest.dropWhile fun c => c = '/' || c = '\\'
        let auth := rest1.takeWhile fun c =>
          !(c = '/' || c = '\\' || c = '?' || c = '#')
        if validHostPort (dropUserinfo auth) then some ⟨scheme ++ [':']⟩
        else none
    else some ⟨scheme ++ [':']⟩

/-- `isValidNavigationUrl` (webviewOperator.ts): `new URL(url)` must succeed
and its protocol must be `http:` or `https:`. -/
def isValidNavigationUrl (url : String) : Bool :=
  match urlProtocol url with
  | some p => ["http:", "https:"].contains p
  | none => false

/-! ## Protocol-call traces -/

/-- One observable effect of the embedded-browser operator: a CDP protocol
call (`Input.*`, `Page.*`, `Runtime.evaluate`, `Emulation.*`), a debugger
attach/detach, a log line, or a timed delay. -/
inductive Ev where
  | keyDown (key code : String) (keyCode : Nat) (modifiers : Nat)
      (commands : List String)
  | keyUp (key code : String) (keyCode : Nat) (modifiers : Nat)
  | insertText (text : String)
  | mouseMoved (x y : ℚ)
  | mousePressed (x y : ℚ) (button : String) (clickCount : Nat)
  | mouseReleased (x y : ℚ) (button : String) (clickCount : Nat)
  | mouseWheel (x y deltaX deltaY : ℚ)
  | pageNavigate (url : String)
  | runtimeEval (expr : String)
  | captureScreenshot
  | getLayoutMetrics
  | setDeviceMetricsOverride (width height : Nat) (dsf : ℚ)
  | debuggerAttach
  | debuggerDetach
  | logWarn (msg : String)
  | logInfo (msg : String)
  | sleep (ms : Nat)
deriving Repr, DecidableEq

/-- Whether an event is a CDP input-dispatch protocol call
(`Input.dispatchKeyEvent`, `Input.dispatchMouseEvent`, `Input.insertText`). -/
def Ev.isInputDispatch : Ev → Bool
  | .keyDown _ _ _ _ _ => true
  | .keyUp _ _ _ _ => true
  | .insertText _ => true
  | .mouseMoved _ _ => true
  | .mousePressed _ _ _ _ => true
  | .mouseReleased _ _ _ _ => true
  | .mouseWheel _ _ _ _ => true
  | _ => false

/-- Whether an event is a logged warning. -/
def Ev.isWarn : Ev → Bool
  | .logWarn _ => true
  | _ => false

/-- Whether an event is a `Page.navigate` protocol call. -/
def Ev.isNavigate : Ev → Bool
  | .pageNavigate _ => true
  | _ => false

/-! ## Navigate (`handleNavigate`) -/

/-- The URL actually used by `handleNavigate`: the raw content, with
`https://` prepended when the content does not match `/^https?:\/\//i`. -/
def navUrlWithScheme (rawUrl : String) : String :=
  if strStartsWith (lowerStr rawUrl) "http://" ||
      strStartsWith (lowerStr rawUrl) "https://" then rawUrl
  else "https://" ++ rawUrl

/-- `EmbeddedBrowserOperator.handleNavigate`: prepend the default scheme if
missing, validate, then either log a rejection or issue `Page.navigate`. -/
def handleNavigate (rawUrl : String) : List Ev :=
  let url := navUrlWithScheme rawUrl
  if !isValidNavigationUrl url then
    [Ev.logWarn ("[EmbeddedBrowserOperator] Blocked navigation to unsafe URL: "
      ++ url)]
  else
    [Ev.logInfo ("[EmbeddedBrowserOperator] Navigating to: " ++ url),
     Ev.pageNavigate url, Ev.sleep 2000]

/-! ## CDP key definitions (`KEY_DEFS`) -/

/-- A key-definition table entry: DOM key value, DOM code value, Windows
virtual key code, modifier flag and CDP modifier bitmask bit. -/
structure KeyDef where
  key : String
  code : String
  keyCode : Nat
  isModifier : Bool := false
  modifierBit : Nat := 0
deriving Repr, DecidableEq

/-- The `ctrl`/`control` entry: on macOS it maps to Meta (Command). -/
def ctrlKeyDef (isMac : Bool) : KeyDef :=
  if isMac then ⟨"Meta", "MetaLeft", 91, true, 4⟩
  else ⟨"Control", "ControlLeft", 17, true, 2⟩

/-- The `cmd`/`command`/`meta`/`win` entry. -/
def metaKeyDef : KeyDef := ⟨"Meta", "MetaLeft", 91, true, 4⟩

/-- The `enter` entry. -/
def enterKeyDef : KeyDef := ⟨"Enter", "Enter", 13, false, 0⟩

/-- The `KEY_DEFS` lookup table of webviewOperator.ts, as a function from the
human-readable key name to its definition.  `isMac` reflects
`os.platform() === 'darwin'`. -/
def KEY_DEFS (isMac : Bool) : String → Option KeyDef
  | "shift" => some ⟨"Shift", "ShiftLeft", 16, true, 8⟩
  | "alt" => some ⟨"Alt", "AltLeft", 18, true, 1⟩
  | "control" => some (ctrlKeyDef isMac)
  | "ctrl" => some (ctrlKeyDef isMac)
  | "cmd" => some metaKeyDef
  | "command" => some metaKeyDef
  | "meta" => some metaKeyDef
  | "enter" => some enterKeyDef
  | "return" => some enterKeyDef
  | "tab" => some ⟨"Tab", "Tab", 9, false, 0⟩
  | "escape" => some ⟨"Escape", "Escape", 27, false, 0⟩
  | "esc" => some ⟨"Escape", "Escape", 27, false, 0⟩
  | "backspace" => some ⟨"Backspace", "Backspace", 8, false, 0⟩
  | "delete" => some ⟨"Delete", "Delete", 46, false, 0⟩
  | "space" => some ⟨" ", "Space", 32, false, 0⟩
  | "insert" => some ⟨"Insert", "Insert", 45, false, 0⟩
  | "home" => some ⟨"Home", "Home", 36, false, 0⟩
  | "end" => some ⟨"End", "End", 35, false, 0⟩
  | "pageup" => some ⟨"PageUp", "PageUp", 33, false, 0⟩
  | "pagedown" => some ⟨"PageDown", "PageDown", 34, false, 0⟩
  | "capslock" => some ⟨"CapsLock", "CapsLock", 20, false, 0⟩
  | "up" => some ⟨"ArrowUp", "ArrowUp", 38, false, 0⟩
  | "down" => some ⟨"ArrowDown", "ArrowDown", 40, false, 0⟩
  | "left" => some ⟨"ArrowLeft", "ArrowLeft", 37, false, 0⟩
  | "right" => some ⟨"ArrowRight", "ArrowRight", 39, false, 0⟩
  | "arrowup" => some ⟨"ArrowUp", "ArrowUp", 38, false, 0⟩
  | "arrowdown" => some ⟨"ArrowDown", "ArrowDown", 40, false, 0⟩
  | "arrowleft" => some ⟨"ArrowLeft", "ArrowLeft", 37, false, 0⟩
  | "arrowright" => some ⟨"ArrowRight", "ArrowRight", 39, false, 0⟩
  | "f1" => some ⟨"F1", "F1", 112, false, 0⟩
  | "f2" => some ⟨"F2", "F2", 113, false, 0⟩
  | "f3" => some ⟨"F3", "F3", 114, false, 0⟩
  | "f4" => some ⟨"F4", "F4", 115, false, 0⟩
  | "f5" => some ⟨"F5", "F5", 116, false, 0⟩
  | "f6" => some ⟨"F6", "F6", 117, false, 0⟩
  | "f7" => some ⟨"F7", "F7", 118, false, 0⟩
  | "f8" => some ⟨"F8", "F8", 119, false, 0⟩
  | "f9" => some ⟨"F9", "F9", 120, false, 0⟩
  | "f10" => some ⟨"F10", "F10", 121, false, 0⟩
  | "f11" => some ⟨"F11", "F11", 122, false, 0⟩
  | "f12" => some ⟨"F12", "F12", 123, false, 0⟩
  | "a" => some ⟨"a", "KeyA", 65, false, 0⟩
  | "b" => some ⟨"b", "KeyB", 66, false, 0⟩
  | "c" => some ⟨"c", "KeyC", 67, false, 0⟩
  | "d" => some ⟨"d", "KeyD", 68, false, 0⟩
  | "e" => some ⟨"e", "KeyE", 69, false, 0⟩
  | "f" => some ⟨"f", "KeyF", 70, false, 0⟩
  | "g" => some ⟨"g", "KeyG", 71, false, 0⟩
  | "h" => some ⟨"h", "KeyH", 72, false, 0⟩
  | "i" => some ⟨"i", "KeyI", 73, false, 0⟩
  | "j" => some ⟨"j", "KeyJ", 74, false, 0⟩
  | "k" => some ⟨"k", "KeyK", 75, false, 0⟩
  | "l" => some ⟨"l", "KeyL", 76, false, 0⟩
  | "m" => some ⟨"m", "KeyM", 77, false, 0⟩
  | "n" => some ⟨"n", "KeyN", 78, false, 0⟩
  | "o" => some ⟨"o", "KeyO", 79, false, 0⟩
  | "p" => some ⟨"p", "KeyP", 80, false, 0⟩
  | "q" => some ⟨"q", "KeyQ", 81, false, 0⟩
  | "r" => some ⟨"r", "KeyR", 82, false, 0⟩
  | "s" => some ⟨"s", "KeyS", 83, false, 0⟩
  | "t" => some ⟨"t", "KeyT", 84, false, 0⟩
  | "u" => some ⟨"u", "KeyU", 85, false, 0⟩
  | "v" => some ⟨"v", "KeyV", 86, false, 0⟩
  | "w" => some ⟨"w", "KeyW", 87, false, 0⟩
  | "x" => some ⟨"x", "KeyX", 88, false, 0⟩
  | "y" => some ⟨"y", "KeyY", 89, false, 0⟩
  | "z" => some ⟨"z", "KeyZ", 90, false, 0⟩
  | "0" => some ⟨"0", "Digit0", 48, false, 0⟩
  | "1" => some ⟨"1", "Digit1", 49, false, 0⟩
  | "2" => some ⟨"2", "Digit2", 50, false, 0⟩
  | "3" => some ⟨"3", "Digit3", 51, false, 0⟩
  | "4" => some ⟨"4", "Digit4", 52, false, 0⟩
  | "5" => some ⟨"5", "Digit5", 53, false, 0⟩
  | "6" => some ⟨"6", "Digit6", 54, false, 0⟩
  | "7" => some ⟨"7", "Digit7", 55, false, 0⟩
  | "8" => some ⟨"8", "Digit8", 56, false, 0⟩
  | "9" => some ⟨"9", "Digit9", 57, false, 0⟩
  | "," => some ⟨",", "Comma", 188, false, 0⟩
  | "comma" => some ⟨",", "Comma", 188, false, 0⟩
  | "." => some ⟨".", "Period", 190, false, 0⟩
  | "period" => some ⟨".", "Period", 190, false, 0⟩
  | "/" => some ⟨"/", "Slash", 191, false, 0⟩
  | "slash" => some ⟨"/", "Slash", 191, false, 0⟩
  | "\\" => some ⟨"\\", "Backslash", 220, false, 0⟩
  | "backslash" => some ⟨"\\", "Backslash", 220, false, 0⟩
  | "-" => some ⟨"-", "Minus", 189, false, 0⟩
  | "minus" => some ⟨"-", "Minus", 189, false, 0⟩
  | "=" => some ⟨"=", "Equal", 187, false, 0⟩
  | "equal" => some ⟨"=", "Equal", 187, false, 0⟩
  | "[" => some ⟨"[", "BracketLeft", 219, false, 0⟩
  | "]" => some ⟨"]", "BracketRight", 221, false, 0⟩
  | ";" => some ⟨";", "Semicolon", 186, false, 0⟩
  | "semicolon" => some ⟨";", "Semicolon", 186, false, 0⟩
  | "'" => some ⟨"'", "Quote", 222, false, 0⟩
  | "quote" => some ⟨"'", "Quote", 222, false, 0⟩
  | "`" => some ⟨"`", "Backquote", 192, false, 0⟩
  | "backquote" => some ⟨"`", "Backquote", 192, false, 0⟩
  | "win" => some metaKeyDef
  | _ => none

/-- The `MAC_SHORTCUT_COMMANDS` table: macOS editing commands attached to
certain modifier+letter shortcuts. -/
def MAC_SHORTCUT_COMMANDS : String → Option String
  | "Meta+a" => some "selectAll"
  | "Meta+c" => some "copy"
  | "Meta+x" => some "cut"
  | "Meta+v" => some "paste"
  | "Meta+z" => some "undo"
  | "Meta+y" => some "redo"
  | "Meta+Shift+z" => some "redo"
  | _ => none

/-- `EmbeddedBrowserOperator.keyTap`: a key-down / key-up pair with a short
delay in between. -/
def keyTap (d : KeyDef) : List Ev :=
  [Ev.keyDown d.key d.code d.keyCode 0 [], Ev.sleep 50,
   Ev.keyUp d.key d.code d.keyCode 0]

/-! ## Type (`handleType`) -/

/-- `EmbeddedBrowserOperator.handleType`: trim the content, strip a trailing
escaped (`\n` as two characters) then literal newline, insert the remaining
text with `Input.insertText`, and tap Enter when the trimmed content ends
with a newline marker. -/
def handleType (content : Option String) : List Ev :=
  match content with
  | none => []
  | some raw =>
    let c := jsTrim raw
    if c = "" then []
    else
      let stripContent := stripSuffix1 (stripSuffix1 c "\\n") "\n"
      [Ev.insertText stripContent] ++
        (if strEndsWith c "\n" || strEndsWith c "\\n" then
          [Ev.sleep 50] ++ keyTap enterKeyDef ++ [Ev.sleep 2000]
        else [])

/-! ## Hotkey (`handleHotkey`) -/

/-- A regexp word character (`\w`), for `\b` boundaries. -/
def isWordChar (c : Char) : Bool :=
  c.isAlphanum || c = '_'

/-- Case-insensitive match of the (lowercase) word `w` at the head of `l`;
returns the remainder on success. -/
def matchWordCI : List Char → List Char → Option (List Char)
  | [], l => some l
  | _ :: _, [] => none
  | w :: ws, c :: cs => if c.toLower = w then matchWordCI ws cs else none

/-- Try to match `w1` + whitespace (`\s+`, or `\s*` when `optSep`) + `w2`,
followed by a word boundary, at the head of `l`. -/
def matchPairAt (w1 w2 : List Char) (optSep : Bool) (l : List Char) :
    Option (List Char) :=
  match matchWordCI w1 l with
  | none => none
  | some r1 =>
    if !optSep && !jsWhitespace (r1.headD 'A') then none
    else
      match matchWordCI w2 (r1.dropWhile jsWhitespace) with
      | none => none
      | some r3 =>
        match r3 with
        | [] => some []
        | c :: _ => if isWordChar c then none else some r3

/-- One global, case-insensitive replacement pass for the word-pair regexps
of `handleHotkey`'s normalisation step (`/\bw1\s+w2\b/gi` → `repl`;
`optSep` marks the `\s*` variants).  The `Bool` argument tracks whether the
previous character was a word character (the left `\b` boundary); the `Nat`
is fuel bounding the scan. -/
def replacePairAux (w1 w2 repl : List Char) (optSep : Bool) :
    Nat → Bool → List Char → List Char
  | 0, _, l => l
  | _ + 1, _, [] => []
  | fuel + 1, prevWord, c :: cs =>
    if !prevWord then
      match matchPairAt w1 w2 optSep (c :: cs) with
      | some rest =>
        repl ++ replacePairAux w1 w2 repl optSep fuel
          (isWordChar (repl.getLastD 'a')) rest
      | none => c :: replacePairAux w1 w2 repl optSep fuel (isWordChar c) cs
    else c :: replacePairAux w1 w2 repl optSep fuel (isWordChar c) cs

/-- JS `s.replace(/\bw1\s+w2\b/gi, repl)` (resp. `\s*` when `optSep`). -/
def replacePair (w1 w2 repl : String) (optSep : Bool) (s : String) : String :=
  ⟨replacePairAux w1.data w2.data repl.data optSep s.data.length false s.data⟩

/-- The normalisation step of `handleHotkey`: collapse multi-word key names
such as "page down" into single tokens before splitting. -/
def normalizeKeyStr (s : String) : String :=
  replacePair "context" "menu" "contextmenu" true
    (replacePair "print" "screen" "printscreen" true
      (replacePair "num" "lock" "numlock" true
        (replacePair "scroll" "lock" "scrolllock" true
          (replacePair "caps" "lock" "capslock" true
            (replacePair "page" "up" "pageup" false
              (replacePair "page" "down" "pagedown" false s))))))

/-- JS `keyStr.split(/[\s+]+/).filter(Boolean)`: split on runs of whitespace
and plus signs, dropping empty fragments. -/
def splitKeysAux : List Char → List Char → List String
  | acc, [] => if acc.isEmpty then [] else [(⟨acc.reverse⟩ : String)]
  | acc, c :: cs =>
    if jsWhitespace c || c = '+' then
      (if acc.isEmpty then [] else [(⟨acc.reverse⟩ : String)]) ++
        splitKeysAux [] cs
    else splitKeysAux (c :: acc) cs

/-- Split a hotkey string into key tokens. -/
def splitKeys (s : String) : List String :=
  splitKeysAux [] s.data

/-- The key-resolution loop of `handleHotkey`: look up each token (lowered)
in `KEY_DEFS`, collecting the resolved definitions and a warning for each
unknown token. -/
def resolveKeys (isMac : Bool) : List String → List KeyDef × List Ev
  | [] => ([], [])
  | k :: ks =>
    let rest := resolveKeys isMac ks
    match KEY_DEFS isMac (lowerStr k) with
    | none =>
      (rest.1,
       Ev.logWarn ("[EmbeddedBrowserOperator] Unsupported key: \"" ++ k ++
         "\", skipping") :: rest.2)
    | some d => (d :: rest.1, rest.2)

/-- The multi-key branch of `handleHotkey`: press all modifiers (carrying the
combined bitmask), press and release each non-modifier in turn (attaching a
macOS editing command when one applies), then release the modifiers in
reverse order. -/
def multiKeyEvents (isMac : Bool) (defs : List KeyDef) : List Ev :=
  let modifiers := defs.filter (·.isModifier)
  let nonModifiers := defs.filter fun d => !d.isModifier
  let modifierBits := modifiers.foldl (fun acc m => acc ||| m.modifierBit) 0
  let shortcutKey := String.intercalate "+" (defs.map (·.key))
  let cmds :=
    match (if isMac then MAC_SHORTCUT_COMMANDS shortcutKey else none) with
    | some c => [c]
    | none => []
  (modifiers.map fun m => Ev.keyDown m.key m.code m.keyCode modifierBits [])
    ++ ((nonModifiers.map fun k =>
          [Ev.keyDown k.key k.code k.keyCode modifierBits cmds, Ev.sleep 50,
           Ev.keyUp k.key k.code k.keyCode modifierBits]).flatten)
    ++ (modifiers.reverse.map fun m => Ev.keyUp m.key m.code m.keyCode 0)

/-- The body of `handleHotkey` once a non-empty key string is in hand:
normalise, split, resolve, then dispatch (warning-only when nothing
resolved, a tap for a single key, the multi-key sequence otherwise). -/
def hotkeyDispatch (isMac : Bool) (keyStr : String) : List Ev :=
  let keys := splitKeys (normalizeKeyStr keyStr)
  let res := resolveKeys isMac keys
  if res.1.isEmpty then
    res.2 ++ [Ev.logWarn
      ("[EmbeddedBrowserOperator] No valid keys found in hotkey: \"" ++
        keyStr ++ "\"")]
  else if res.1.length = 1 then
    res.2 ++ keyTap (res.1.headD enterKeyDef) ++ [Ev.sleep 500]
  else
    res.2 ++ multiKeyEvents isMac res.1 ++ [Ev.sleep 500]

/-- JS falsy-coalescing `a || b` on optional strings. -/
def jsOrStr (a b : Option String) : Option String :=
  match a with
  | some s => if s = "" then b else some s
  | none => b

/-- `EmbeddedBrowserOperator.handleHotkey`: read `inputs.key || inputs.hotkey`
and dispatch; a missing or empty key string is a silent no-op. -/
def handleHotkey (isMac : Bool) (key hotkey : Option String) : List Ev :=
  match jsOrStr key hotkey with
  | none => []
  | some s => if s = "" then [] else hotkeyDispatch isMac s

/-- `EmbeddedBrowserOperator.handleKeyAction`: dispatch a bare key-down
(`down = true`) or key-up for each named key, skipping unknown keys with a
warning. -/
def handleKeyAction (isMac : Bool) (down : Bool) (key : Option String) :
    List Ev :=
  match key with
  | none => []
  | some s =>
    if s = "" then []
    else
      ((splitKeys s).map fun k =>
        match KEY_DEFS isMac (lowerStr k) with
        | none =>
          [Ev.logWarn ("[EmbeddedBrowserOperator] Unsupported key in " ++
            (if down then "down" else "up") ++ ": \"" ++ k ++ "\", skipping")]
        | some d =>
          [(if down then Ev.keyDown d.key d.code d.keyCode 0 []
            else Ev.keyUp d.key d.code d.keyCode 0), Ev.sleep 50]).flatten

/-! ## Operator state and session connection -/

/-- The fixed canonical viewport of the embedded browser surface. -/
def BROWSER_VIEWPORT_WIDTH : Nat := 1280

/-- The fixed canonical viewport height. -/
def BROWSER_VIEWPORT_HEIGHT : Nat := 720

/-- A webContents handle as the operator observes it: identity, surface
type, liveness, and the behaviour of its `debugger` object
(`isAttached()`, and whether `attach('1.3')` would throw). -/
structure WC where
  id : Nat
  kind : String
  destroyed : Bool
  debuggerIsAttached : Bool
  attachThrows : Bool
  attachErrAlready : Bool
deriving Repr, DecidableEq

/-- The mutable fields of `EmbeddedBrowserOperator`: the bound webContents,
the `debuggerAttached` flag and the cached device scale factor. -/
structure EmbState where
  wc : Option WC
  debuggerAttached : Bool
  deviceScaleFactor : Option ℚ
deriving Repr, DecidableEq

/-- Whether the operator's webContents is missing or destroyed
(`!this.wc || this.wc.isDestroyed()`). -/
def wcGone (st : EmbState) : Bool :=
  match st.wc with
  | none => true
  | some wc => wc.destroyed

/-- The re-attach step of `ensureAttached`: detach any stale channel, attach
fresh, and re-apply the canonical viewport; any throw becomes the
"Cannot re-attach debugger" error. -/
def attachFresh (st : EmbState) (wc : WC) : Except String EmbState × List Ev :=
  let detachEvs := if wc.debuggerIsAttached then [Ev.debuggerDetach] else []
  if wc.attachThrows then
    (.error "[EmbeddedBrowserOperator] Cannot re-attach debugger",
     detachEvs ++ [Ev.debuggerAttach])
  else
    (.ok { st with debuggerAttached := true, deviceScaleFactor := some 1 },
     detachEvs ++
       [Ev.debuggerAttach,
        Ev.logInfo "[EmbeddedBrowserOperator] Re-attached debugger",
        Ev.setDeviceMetricsOverride BROWSER_VIEWPORT_WIDTH
          BROWSER_VIEWPORT_HEIGHT 1])

/-- The reconnect branch of `ensureAttached`: the webContents was destroyed
(or never set), so search the available webContents for a live webview and
re-attach to it. -/
def ensureReconnect (avail : List WC) (st : EmbState) :
    Except String EmbState × List Ev :=
  let warnEv := Ev.logWarn
    "[EmbeddedBrowserOperator] WebContents destroyed, attempting to reconnect..."
  match avail.find? fun w => w.kind = "webview" && !w.destroyed with
  | none =>
    (.error
      "[EmbeddedBrowserOperator] WebContents destroyed and no webview available",
     [warnEv])
  | some w =>
    let st1 := { st with wc := some w, debuggerAttached := false }
    let p := attachFresh st1 w
    (p.1,
     warnEv :: Ev.logInfo "[EmbeddedBrowserOperator] Found new webview" :: p.2)

/-- `EmbeddedBrowserOperator.ensureAttached`: a no-op when the webContents is
alive and the debugger flag is set; otherwise rebind a live webview if
needed and re-attach the debugger. -/
def ensureAttached (avail : List WC) (st : EmbState) :
    Except String EmbState × List Ev :=
  match st.wc with
  | some wc =>
    if !wc.destroyed && st.debuggerAttached then (.ok st, [])
    else if !wc.destroyed then attachFresh st wc
    else ensureReconnect avail st
  | none => ensureReconnect avail st

/-- The environment a single operator call runs in: the currently available
webContents, and the host's answers to the scale-factor query and the
layout-metrics query (`none` / `0` model a throw or a missing field). -/
structure EmbEnv where
  avail : List WC
  dprResult : Option ℚ -- the host's answer to the device-pixel-ratio query
  viewportW : ℚ
  viewportH : ℚ

/-- The fallback branch of `getScaleFactor`: evaluate
`window.devicePixelRatio` in the page, accept a positive number, default
to 1. -/
def getScaleFactorEval (env : EmbEnv) (st : EmbState) :
    ℚ × EmbState × List Ev :=
  let evs := [Ev.runtimeEval "window.devicePixelRatio"]
  match env.dprResult with
  | some r =>
    if 0 < r then (r, { st with deviceScaleFactor := some r }, evs)
    else (1, { st with deviceScaleFactor := some 1 }, evs)
  | none => (1, { st with deviceScaleFactor := some 1 }, evs)

/-- `EmbeddedBrowserOperator.getScaleFactor`: return the cached (truthy)
scale factor, else query the page. -/
def getScaleFactor (env : EmbEnv) (st : EmbState) : ℚ × EmbState × List Ev :=
  match st.deviceScaleFactor with
  | some q => if q ≠ 0 then (q, st, []) else getScaleFactorEval env st
  | none => getScaleFactorEval env st

/-! ## Mouse, scroll and drag primitives -/

/-- `EmbeddedBrowserOperator.mouseClick`: move, settle, press, release, and
a post-click settle delay. -/
def mouseClickEvs (x y : ℚ) (button : String) (clickCount : Nat) : List Ev :=
  [Ev.mouseMoved x y, Ev.sleep 100,
   Ev.mousePressed x y button clickCount, Ev.sleep 50,
   Ev.mouseReleased x y button clickCount, Ev.sleep 800]

/-- `EmbeddedBrowserOperator.handleScroll`: anchor a wheel event at the
viewport centre queried from `Page.getLayoutMetrics` (with JS `|| 800` /
`|| 600` fallbacks), signed delta 500 along the requested axis. -/
def handleScroll (env : EmbEnv) (direction : Option String) : List Ev :=
  let cx := (if env.viewportW ≠ 0 then env.viewportW else 800) / 2
  let cy := (if env.viewportH ≠ 0 then env.viewportH else 600) / 2
  Ev.getLayoutMetrics ::
    match direction.map lowerStr with
    | some "up" => [Ev.mouseWheel cx cy 0 (-500), Ev.sleep 500]
    | some "down" => [Ev.mouseWheel cx cy 0 500, Ev.sleep 500]
    | some "left" => [Ev.mouseWheel cx cy (-500) 0, Ev.sleep 500]
    | some "right" => [Ev.mouseWheel cx cy 500 0, Ev.sleep 500]
    | _ => [Ev.logWarn "[EmbeddedBrowserOperator] Unsupported scroll direction"]

/-- The external SDK box parser (`parseBoxToScreenCoords` from
`@ui-tars/sdk/core`), abstracted: a box string and the screenshot
resolution yield optional canonical-resolution coordinates. -/
def BoxParser : Type :=
  String → ℚ → ℚ → Option ℚ × Option ℚ

/-- `EmbeddedBrowserOperator.handleDrag`: resolve both boxes, divide by the
scale factor, press at the start, move through 10 interpolated steps,
release at the end.  Missing boxes or unresolved coordinates are a no-op. -/
def handleDrag (parseBox : BoxParser) (sf : ℚ) (screenW screenH : ℚ)
    (startBox endBox : Option String) : List Ev :=
  let startBoxStr := startBox.getD ""
  let endBoxStr := endBox.getD ""
  if startBoxStr = "" || endBoxStr = "" then []
  else
    let sc := parseBox startBoxStr screenW screenH
    let ec := parseBox endBoxStr screenW screenH
    match sc.1, sc.2, ec.1, ec.2 with
    | some sx0, some sy0, some ex0, some ey0 =>
      let sx := sx0 / sf
      let sy := sy0 / sf
      let ex := ex0 / sf
      let ey := ey0 / sf
      [Ev.mouseMoved sx sy, Ev.sleep 100,
       Ev.mousePressed sx sy "left" 1] ++
        (((List.range 10).map fun i =>
          [Ev.mouseMoved (sx + ((ex - sx) * ((i : ℚ) + 1)) / 10)
             (sy + ((ey - sy) * ((i : ℚ) + 1)) / 10), Ev.sleep 30]).flatten) ++
        [Ev.sleep 100, Ev.mouseReleased ex ey "left" 1, Ev.sleep 800]
    | _, _, _, _ => []

/-! ## Execute -/

/-- The `inputs` mapping of a parsed action. -/
structure ActionInputs where
  start_box : Option String := none
  end_box : Option String := none
  content : Option String := none
  key : Option String := none
  hotkey : Option String := none
  direction : Option String := none
deriving Repr, DecidableEq

/-- The parameters of one `execute` call: the parsed prediction plus the
screenshot resolution. -/
structure ExecParams where
  action_type : String
  action_inputs : ActionInputs
  screenWidth : ℚ
  screenHeight : ℚ
deriving Repr, DecidableEq

/-- The value `execute` resolves with (the computed device start point). -/
structure ExecOut where
  startX : Option ℚ
  startY : Option ℚ
deriving Repr, DecidableEq

/-- The `switch (action_type)` body of `EmbeddedBrowserOperator.execute`. -/
def executeBody (isMac : Bool) (parseBox : BoxParser) (env : EmbEnv)
    (sf : ℚ) (p : ExecParams) (startX startY : Option ℚ) : List Ev :=
  match p.action_type with
  | "click" | "left_click" | "left_single" =>
    match startX, startY with
    | some x, some y => mouseClickEvs x y "left" 1
    | _, _ => []
  | "double_click" | "left_double" =>
    match startX, startY with
    | some x, some y => mouseClickEvs x y "left" 2
    | _, _ => []
  | "right_click" | "right_single" =>
    match startX, startY with
    | some x, some y => mouseClickEvs x y "right" 1
    | _, _ => []
  | "type" => handleType p.action_inputs.content ++ [Ev.sleep 1000]
  | "hotkey" => handleHotkey isMac p.action_inputs.key p.action_inputs.hotkey
  | "press" => handleKeyAction isMac true p.action_inputs.key
  | "release" => handleKeyAction isMac false p.action_inputs.key ++ [Ev.sleep 500]
  | "scroll" => handleScroll env p.action_inputs.direction
  | "drag" =>
    handleDrag parseBox sf p.screenWidth p.screenHeight
      p.action_inputs.start_box p.action_inputs.end_box
  | "navigate" =>
    match p.action_inputs.content with
    | some c => if c = "" then [] else handleNavigate c
    | none => []
  | "navigate_back" => [Ev.runtimeEval "history.back()", Ev.sleep 1000]
  | "wait" => [Ev.sleep 5000]
  | "finished" | "call_user" | "user_stop" => []
  | other => [Ev.logWarn ("[EmbeddedBrowserOperator] Unsupported action: " ++ other)]

/-- `EmbeddedBrowserOperator.execute`: ensure attachment, compute the scaled
start point from the (external) box parser, then run the per-action body. -/
def execute (isMac : Bool) (parseBox : BoxParser) (env : EmbEnv)
    (st : EmbState) (p : ExecParams) :
    Except String (EmbState × ExecOut) × List Ev :=
  match ensureAttached env.avail st with
  | (.error e, evs) => (.error e, evs)
  | (.ok st1, evs1) =>
    let q := getScaleFactor env st1
    let sf := q.1
    let startBoxStr := (p.action_inputs.start_box).getD ""
    let coords := parseBox startBoxStr p.screenWidth p.screenHeight
    let startX := coords.1.map (· / sf)
    let startY := coords.2.map (· / sf)
    (.ok (q.2.1, ⟨startX, startY⟩),
     evs1 ++ q.2.2 ++
       (Ev.logInfo ("[EmbeddedBrowserOperator] Execute: " ++ p.action_type) ::
         executeBody isMac parseBox env sf p startX startY) ++
       [Ev.logInfo ("[EmbeddedBrowserOperator] Action " ++ p.action_type ++
         " completed")])

/-! ## Connect -/

/-- What `webContents.getAllWebContents()` returns at each retry attempt of
`connect` (attempts are numbered from 1). -/
structure ConnEnv where
  wcLists : Nat → List WC

/-- The retry loop of `connect`: up to 10 attempts to find a webview-type
webContents, sleeping 500ms between attempts.  The fuel argument counts the
remaining attempts. -/
def connectSearchFrom (env : ConnEnv) : Nat → Nat → Option WC × List Ev
  | _, 0 => (none, [])
  | attempt, fuel + 1 =>
    let all := env.wcLists attempt
    let evs0 := [Ev.logInfo ("[EmbeddedBrowserOperator] Attempt " ++
      toString attempt ++ "/10 — webContents count: " ++ toString all.length)]
    match all.find? fun w => w.kind = "webview" with
    | some w => (some w, evs0)
    | none =>
      if attempt < 10 then
        let rest := connectSearchFrom env (attempt + 1) fuel
        (rest.1,
         evs0 ++
           [Ev.logInfo "[EmbeddedBrowserOperator] Webview not found yet, retrying...",
            Ev.sleep 500] ++ rest.2)
      else (none, evs0)

/-- `EmbeddedBrowserOperator.connect`: find the webview with bounded retry,
detach any stale debugger, attach (tolerating an "Already attached" throw),
and fix the canonical viewport.  Throws when no webview is found or the
attach fails with any other error. -/
def connect (env : ConnEnv) : Except String EmbState × List Ev :=
  let pre :=
    [Ev.logInfo "[EmbeddedBrowserOperator] Finding webview webContents..."]
  let s := connectSearchFrom env 1 10
  match s.1 with
  | none =>
    (.error "[EmbeddedBrowserOperator] No webview found after retries. Make sure the browser panel is loaded.",
     pre ++ s.2)
  | some w =>
    let detachEvs :=
      if w.debuggerIsAttached then
        [Ev.debuggerDetach,
         Ev.logInfo "[EmbeddedBrowserOperator] Detached existing debugger before re-attaching"]
      else []
    if w.attachThrows && !w.attachErrAlready then
      (.error "[EmbeddedBrowserOperator] debugger attach failed",
       pre ++ s.2 ++ detachEvs ++ [Ev.debuggerAttach])
    else
      (.ok { wc := some w, debuggerAttached := true, deviceScaleFactor := some 1 },
       pre ++ s.2 ++ detachEvs ++
         [Ev.debuggerAttach,
          Ev.logInfo (if w.attachThrows then
            "[EmbeddedBrowserOperator] Debugger was already attached"
          else "[EmbeddedBrowserOperator] Debugger attached to webview"),
          Ev.setDeviceMetricsOverride BROWSER_VIEWPORT_WIDTH
            BROWSER_VIEWPORT_HEIGHT 1])

/-! ## Local-desktop operator (NutJSElectronOperator) -/

/-- One observable effect of the local-desktop operator: overlay
hide/restore, screen capture, clipboard and keyboard traffic, delegation to
the base-class implementation, logging and delays. -/
inductive NEv where
  | hideOverlays
  | restoreOverlays
  | sleepN (ms : Nat)
  | getSources
  | superScreenshot
  | superExecute
  | clipboardRead
  | clipboardWrite (text : String)
  | keyPress (keys : List String)
  | keyRelease (keys : List String)
  | logInfoN (msg : String)
  | logErrorN (msg : String)
deriving Repr, DecidableEq

/-- A desktop-capturer source: display id and thumbnail size. -/
structure NutSource where
  display_id : String
  width : ℚ
  height : ℚ
deriving Repr, DecidableEq

/-- The environment of one `NutJSElectronOperator.screenshot` call.
`getSourcesOk = none` models `desktopCapturer.getSources` rejecting;
`superResult = none` models the base-class fallback screenshot throwing.
A `none` overall result below models the call rejecting. -/
structure NutShotEnv where
  physicalW : ℚ
  physicalH : ℚ
  scaleFactor : ℚ
  primaryDisplayId : Nat
  isWindows : Bool
  getSourcesOk : Option (List NutSource)
  superResult : Option ℚ

/-- `NutJSElectronOperator.screenshot`: hide the overlays, capture the
primary display (falling back to the base implementation when the source is
missing), and restore the overlays in a `finally` block on every exit
path. -/
def nutScreenshot (env : NutShotEnv) : Option ℚ × List NEv :=
  let pre := [NEv.logInfoN "[screenshot] [primaryDisplay]",
    NEv.hideOverlays, NEv.sleepN (if env.isWindows then 200 else 50)]
  let body : Option ℚ × List NEv :=
    match env.getSourcesOk with
    | none => (none, [NEv.getSources])
    | some sources =>
      match (sources.find? fun s =>
          s.display_id = toString env.primaryDisplayId).orElse
          (fun _ => sources.head?) with
      | none =>
        (env.superResult,
         [NEv.getSources,
          NEv.logErrorN "[screenshot] Primary display source not found",
          NEv.superScreenshot])
      | some _ =>
        (some env.scaleFactor,
         [NEv.getSources, NEv.logInfoN "[screenshot] captured size"])
  (body.1, pre ++ body.2 ++ [NEv.restoreOverlays])

/-- The environment of one `NutJSElectronOperator.execute` call:
the platform flag and whether the base-class `execute` resolves. -/
structure NutExecEnv where
  isWindows : Bool
  superOk : Bool
deriving Repr, DecidableEq

/-- The slice of the parsed prediction `NutJSElectronOperator.execute`
inspects itself. -/
structure NutExecParams where
  action_type : String
  content : Option String := none
deriving Repr, DecidableEq

/-- Action types that skip overlay manipulation in
`NutJSElectronOperator.execute`. -/
def nutNeedsOverlayHide (t : String) : Bool :=
  !(["finished", "call_user", "error_env", "user_stop", "wait"].contains t)

/-- `NutJSElectronOperator.execute`: hide the overlays for interactive
actions, run the Windows clipboard-paste path for `type` (read the
clipboard, paste the stripped content, write the original text back, then
Enter for a trailing newline marker) or delegate to the base class, and
restore the overlays in a `finally` block.  Returns success flag, final
clipboard text, and the trace. -/
def nutExecute (env : NutExecEnv) (p : NutExecParams) (clip : String) :
    Bool × String × List NEv :=
  let hideEvs :=
    if nutNeedsOverlayHide p.action_type then
      [NEv.hideOverlays, NEv.sleepN (if env.isWindows then 200 else 50)]
    else []
  let finEvs :=
    if nutNeedsOverlayHide p.action_type then
      [NEv.sleepN 100, NEv.restoreOverlays]
    else []
  if p.action_type == "type" && env.isWindows &&
      !(p.content.getD "").isEmpty then
    let content := jsTrim (p.content.getD "")
    let stripContent := stripSuffix1 (stripSuffix1 content "\\n") "\n"
    let enterEvs :=
      if strEndsWith content "\n" || strEndsWith content "\\n" then
        [NEv.keyPress ["Enter"], NEv.keyRelease ["Enter"]]
      else []
    (true, clip,
     hideEvs ++
       [NEv.logInfoN "[device] type", NEv.clipboardRead,
        NEv.clipboardWrite stripContent,
        NEv.keyPress ["LeftControl", "V"], NEv.sleepN 50,
        NEv.keyRelease ["LeftControl", "V"], NEv.sleepN 50,
        NEv.clipboardWrite clip] ++ enterEvs ++ finEvs)
  else
    (env.superOk, clip, hideEvs ++ [NEv.superExecute] ++ finEvs)

/-! ## Agent runner (runAgent) -/

/-- The operator selected in settings. -/
inductive OperatorKind where
  | LocalComputer
  | LocalBrowser
  | RemoteComputer
  | RemoteBrowser
deriving Repr, DecidableEq

/-- The agent status values `runAgent` writes (`StatusEnum`). -/
inductive AgentStatus where
  | INIT
  | RUNNING
  | ERROR
  | END
  | CALL_USER
deriving Repr, DecidableEq

/-- A processed attachment held in the app state (`type` field modelled as
`kind`). -/
structure Attachment where
  kind : String
  fileName : String
  content : String
deriving Repr, DecidableEq

/-- The slice of the renderer-visible app state `runAgent` writes. -/
structure AppState where
  status : AgentStatus
  errorMsg : Option String
  attachments : List Attachment
deriving Repr, DecidableEq

/-- One observable step of `runAgent`. -/
inductive REv where
  | constructLocalOperator
  | connectEmbedded
  | createRemoteOperator
  | proxyModelConfig
  | constructAgent
  | sendInstruction
  | beforeRun
  | agentRun
  | afterRun
deriving Repr, DecidableEq

/-- The environment of one `runAgent` call: selected operator, whether the
embedded operator's `connect` resolves, whether remote-operator creation
and the proxy model-config calls resolve, and the agent run's outcome
(`none` = resolves, `some e` = rejects with message `e`). -/
structure RunEnv where
  operator : OperatorKind
  connectOk : Bool
  remoteCreateOk : Bool
  proxyOk : Bool
  runOutcome : Option String

/-- The error message `runAgent` stores when the embedded browser operator
fails to connect. -/
def connectErrorMsg : String :=
  "Failed to connect to embedded browser. Please ensure the browser panel is loaded and try again."

/-- The tail of `runAgent` once an operator is in hand: construct the agent,
send the instruction, run it (a rejection is caught and stored as an ERROR
state), clear the attachments, and run the post-run hook. -/
def runAgentWithOperator (env : RunEnv) (st : AppState) (pre : List REv) :
    Option AppState × List REv :=
  let st1 :=
    match env.runOutcome with
    | none => st
    | some e => { st with status := .ERROR, errorMsg := some e }
  (some { st1 with attachments := [] },
   pre ++ [REv.constructAgent, REv.sendInstruction, REv.beforeRun,
     REv.agentRun, REv.afterRun])

/-- `runAgent` (services/runAgent.ts): select and connect the operator —
aborting with a stored ERROR state when the embedded browser cannot be
reached — then run the agent and clear the attachments.  A `none` result
models `runAgent` itself rejecting (remote setup throwing). -/
def runAgent (env : RunEnv) (st : AppState) : Option AppState × List REv :=
  match env.operator with
  | .LocalComputer =>
    runAgentWithOperator env st [REv.constructLocalOperator]
  | .LocalBrowser =>
    if env.connectOk then runAgentWithOperator env st [REv.connectEmbedded]
    else
      (some { st with status := .ERROR, errorMsg := some connectErrorMsg },
       [REv.connectEmbedded])
  | .RemoteComputer | .RemoteBrowser =>
    if !env.remoteCreateOk then (none, [REv.createRemoteOperator])
    else if !env.proxyOk then
      (none, [REv.createRemoteOperator, REv.proxyModelConfig])
    else
      runAgentWithOperator env st
        [REv.createRemoteOperator, REv.proxyModelConfig]

/-! ## The spec-modelled external box parser -/

/-- JS `Math.round` on a rational. -/
def jsRound (q : ℚ) : ℚ :=
  ((q + 1/2).floor : ℚ)

/-- Parse a decimal literal (optional sign, digits, optional fraction). -/
def parseDecimal (l : List Char) : Option ℚ :=
  let core : List Char → Option ℚ := fun l' =>
    let intPart := l'.takeWhile (·.isDigit)
    let rest := l'.dropWhile (·.isDigit)
    let fracPart :=
      match rest with
      | '.' :: t => if t.all (·.isDigit) then some t else none
      | [] => some []
      | _ => none
    match fracPart with
    | none => none
    | some f =>
      if intPart.isEmpty && f.isEmpty then none
      else
        let iv : ℚ := intPart.foldl (fun acc c => acc * 10 + (c.toNat - 48)) 0
        let fv : ℚ := f.foldl (fun acc c => acc * 10 + (c.toNat - 48)) 0
        some (iv + fv / (10 ^ f.length))
  match l with
  | '-' :: t => (core t).map (fun q => -q)
  | '+' :: t => core t
  | _ => core l

/-- Split a character list at commas (keeping empty fragments). -/
def splitOnCommaAux : List Char → List Char → List (List Char)
  | acc, [] => [acc.reverse]
  | acc, c :: cs =>
    if c = ',' then acc.reverse :: splitOnCommaAux [] cs
    else splitOnCommaAux (c :: acc) cs

/-- Split a character list at commas. -/
def splitOnComma (l : List Char) : List (List Char) :=
  splitOnCommaAux [] l

/-- Modelled from the spec: the external SDK coordinate parser
`parseBoxToScreenCoords` (imported from `@ui-tars/sdk/core`, whose source is
not part of this repository).  Per the spec's Coordinate Mapper, a
model-reported bounding-box string `[x1, y1, x2, y2]` in normalised
prediction space and the screenshot resolution yield the box-centre point in
canonical-resolution pixels (rounded); an empty or unparseable box string
yields no coordinates. -/
def parseBoxToScreenCoords : BoxParser := fun boxStr screenW screenH =>
  let nums := (boxStr.data.filter fun c => !(c = '[' || c = ']'))
  let parts := (splitOnComma nums).map fun p =>
    parseDecimal ((p.dropWhile jsWhitespace).reverse.dropWhile
      jsWhitespace).reverse
  match parts with
  | some x1 :: some y1 :: rest =>
    let x2 := match rest with | some a :: _ => a | _ => x1
    let y2 := match rest with | _ :: some b :: _ => b | _ => y1
    (some (jsRound (((x1 + x2) / 2) * screenW)),
     some (jsRound (((y1 + y2) / 2) * screenH)))
  | _ => (none, none)

/-- Whether the no-op fast-path condition of `ensureAttached` holds: a live
webContents with the debugger flag set. -/
def attachedFast (st : EmbState) : Bool :=
  match st.wc with
  | some wc => !wc.destroyed && st.debuggerAttached
  | none => false

/-- An `execute` call that acts as a no-op: it resolves normally, dispatches
no input event, and logs no warning. -/
def execNoOp (isMac : Bool) (parseBox : BoxParser) (env : EmbEnv)
    (st : EmbState) (p : ExecParams) : Prop :=
  (execute isMac parseBox env st p).2.countP Ev.isInputDispatch = 0 ∧
  (execute isMac parseBox env st p).2.countP Ev.isWarn = 0 ∧
  ∃ out, (execute isMac parseBox env st p).1 = Except.ok out

/-- A live, debugger-friendly webview used for concrete runs. -/
def egWC : WC := ⟨1, "webview", false, false, false, false⟩

/-- A healthy attached operator state used for concrete runs. -/
def egState : EmbState := ⟨some egWC, true, some 1⟩

/-- A benign environment used for concrete runs. -/
def egEnv : EmbEnv := ⟨[egWC], none, 1280, 720⟩

/-- A live webview whose debugger attach always throws (without the
"Already attached" message). -/
def failWC : WC := ⟨2, "webview", false, false, true, false⟩

/-- An operator state bound to `failWC` with the attached flag down. -/
def failState : EmbState := ⟨some failWC, false, none⟩

/-- Exactly one overlay-hide and one overlay-restore bracket a trace: the
hide precedes, the restore is the final event, and neither occurs again. -/
def overlayPaired (tr : List NEv) : Prop :=
  ∃ pre mid,
    tr = pre ++ NEv.hideOverlays :: (mid ++ [NEv.restoreOverlays]) ∧
    NEv.hideOverlays ∉ pre ∧ NEv.restoreOverlays ∉ pre ∧
    NEv.hideOverlays ∉ mid ∧ NEv.restoreOverlays ∉ mid

/-! ## Trace predicates -/

/-- Whether an event is a dispatched key event (`Input.dispatchKeyEvent`). -/
def Ev.isKeyEvent : Ev → Bool
  | .keyDown _ _ _ _ _ => true
  | .keyUp _ _ _ _ => true
  | _ => false

/-- Whether an event is a debugger-attach call. -/
def Ev.isAttachCall : Ev → Bool
  | .debuggerAttach => true
  | _ => false

/-- Whether an event is a debugger-detach call. -/
def Ev.isDetachCall : Ev → Bool
  | .debuggerDetach => true
  | _ => false

/-- Whether an event is a delay. -/
def Ev.isSleep : Ev → Bool
  | .sleep _ => true
  | _ => false

/-- Whether an event is a dispatched mouse event
(`Input.dispatchMouseEvent`). -/
def Ev.isMouseEv : Ev → Bool
  | .mouseMoved _ _ => true
  | .mousePressed _ _ _ _ => true
  | .mouseReleased _ _ _ _ => true
  | .mouseWheel _ _ _ _ => true
  | _ => false

/-- Whether an event is a mouse-press. -/
def Ev.isPressedEv : Ev → Bool
  | .mousePressed _ _ _ _ => true
  | _ => false

/-- Whether an event is a mouse-release. -/
def Ev.isReleasedEv : Ev → Bool
  | .mouseReleased _ _ _ _ => true
  | _ => false

/-- Whether a local-operator event is a clipboard read. -/
def NEv.isClipRead : NEv → Bool
  | .clipboardRead => true
  | _ => false

/-- Whether a local-operator event is a clipboard write. -/
def NEv.isClipWrite : NEv → Bool
  | .clipboardWrite _ => true
  | _ => false

/-! ## Concrete sanity checks -/

example : (handleNavigate "javascript:alert(1)").countP Ev.isNavigate = 0 := by
  decide

example : (handleNavigate "example.com").countP Ev.isNavigate = 1 := by
  decide

example : handleNavigate "HTTP://example.com" =
    [Ev.logInfo "[EmbeddedBrowserOperator] Navigating to: HTTP://example.com",
     Ev.pageNavigate "HTTP://example.com", Ev.sleep 2000] := by
  decide

example : (handleNavigate "http://").countP Ev.isNavigate = 0 := by
  decide

example : handleType (some "openrouter.ai\\n") =
    [Ev.insertText "openrouter.ai", Ev.sleep 50,
     Ev.keyDown "Enter" "Enter" 13 0 [], Ev.sleep 50,
     Ev.keyUp "Enter" "Enter" 13 0, Ev.sleep 2000] := by
  decide

example : handleType (some "hello\n") = [Ev.insertText "hello"] := by
  decide

example :
    handleHotkey false (some "ctrl+shift+z") none =
      [Ev.keyDown "Control" "ControlLeft" 17 10 [],
       Ev.keyDown "Shift" "ShiftLeft" 16 10 [],
       Ev.keyDown "z" "KeyZ" 90 10 [], Ev.sleep 50,
       Ev.keyUp "z" "KeyZ" 90 10,
       Ev.keyUp "Shift" "ShiftLeft" 16 0,
       Ev.keyUp "Control" "ControlLeft" 17 0,
       Ev.sleep 500] := by
  decide

example :
    handleHotkey true (some "page down") none =
      [Ev.keyDown "PageDown" "PageDown" 34 0 [], Ev.sleep 50,
       Ev.keyUp "PageDown" "PageDown" 34 0, Ev.sleep 500] := by
  decide

/-! ## C1: navigation scheme allow-list -/

/-- C1: for every navigate action the operator first prepends `https://` when
the content does not already start with an `http://`/`https://` prefix
(case-insensitively), then issues a `Page.navigate` protocol call if and
only if the resulting string parses as a URL whose scheme is `http:` or
`https:`; a URL failing the check yields exactly the logged warning and
zero navigation calls — in particular for content `javascript:alert(1)`. -/
theorem navigate_allowlist_iff :
    (∀ rawUrl : String,
      (strStartsWith (lowerStr rawUrl) "http://" = false →
        strStartsWith (lowerStr rawUrl) "https://" = false →
        navUrlWithScheme rawUrl = "https://" ++ rawUrl) ∧
      ((handleNavigate rawUrl).countP Ev.isNavigate =
        if isValidNavigationUrl (navUrlWithScheme rawUrl) then 1 else 0) ∧
      (isValidNavigationUrl (navUrlWithScheme rawUrl) = false →
        handleNavigate rawUrl =
          [Ev.logWarn
            ("[EmbeddedBrowserOperator] Blocked navigation to unsafe URL: " ++
              navUrlWithScheme rawUrl)])) ∧
    (handleNavigate "javascript:alert(1)").countP Ev.isNavigate = 0 ∧
    (handleNavigate "javascript:alert(1)").countP Ev.isWarn = 1 := by
  refine ⟨fun rawUrl => ⟨?_, ?_, ?_⟩, by decide, by decide⟩
  · intro h1 h2
    simp [navUrlWithScheme, h1, h2]
  · unfold handleNavigate
    cases h : isValidNavigationUrl (navUrlWithScheme rawUrl) <;>
      simp [h, Ev.isNavigate, List.countP_cons]
  · intro h
    simp [handleNavigate, h]

/-- C1 witness: the dangerous input is prepended with the default scheme and
rejected. -/
theorem navigate_allowlist_iff_witness :
    navUrlWithScheme "javascript:alert(1)" =
      "https://" ++ "javascript:alert(1)" :=
  (navigate_allowlist_iff.1 "javascript:alert(1)").1 (by decide) (by decide)

/-! ## C2: type action and the trailing newline marker -/

/-- A singleton list is a prefix exactly when it is the head. -/
lemma isPrefixOf_singleton_eq (c : Char) (l : List Char) :
    ([c].isPrefixOf l = true) ↔ l.head? = some c := by
  cases l with
  | nil => simp [List.isPrefixOf]
  | cons a t =>
    simp [List.isPrefixOf]
    exact eq_comm

/-- The head surviving a `dropWhile` fails the predicate. -/
lemma head_dropWhile_not (p : Char → Bool) :
    ∀ (l : List Char) (c : Char), (l.dropWhile p).head? = some c → p c = false := by
  intro l
  induction l with
  | nil => intro c h; simp [List.dropWhile] at h
  | cons a t ih =>
    intro c h
    by_cases hp : p a
    · rw [List.dropWhile_cons_of_pos hp] at h
      exact ih c h
    · rw [List.dropWhile_cons_of_neg hp] at h
      simp only [List.head?_cons, Option.some.injEq] at h
      subst h
      simpa using hp

/-- A character removed by the predicate cannot lead a `dropWhile` result. -/
lemma singleton_isPrefixOf_dropWhile (p : Char → Bool) (c : Char)
    (hc : p c = true) (l : List Char) :
    [c].isPrefixOf (l.dropWhile p) = false := by
  by_contra hcon
  rw [Bool.not_eq_false, isPrefixOf_singleton_eq] at hcon
  have := head_dropWhile_not p l c hcon
  rw [hc] at this
  exact absurd this (by decide)

/-- The JS trim can never leave a trailing literal newline. -/
lemma jsTrim_not_newline (s : String) :
    strEndsWith (jsTrim s) "\n" = false := by
  show ((("\n" : String).data.reverse).isPrefixOf
    (((s.data.dropWhile jsWhitespace).reverse.dropWhile
      jsWhitespace).reverse.reverse)) = false
  rw [List.reverse_reverse]
  exact singleton_isPrefixOf_dropWhile jsWhitespace '\n' (by decide) _

/-- C2 counterexample: content carrying a trailing literal newline character
is inserted with no Enter key tap at all — the initial trim removes the
literal newline before the trailing-marker check can see it, contradicting
the claim that a literal trailing `'\n'` is followed by an Enter tap. -/
theorem type_literal_newline_counterexample :
    handleType (some "abc\n") = [Ev.insertText "abc"] ∧
    (handleType (some "abc\n")).countP Ev.isKeyEvent = 0 := by
  decide

/-- C2 (amended): for every type action whose content is non-empty after
trimming, the operator issues a single `Input.insertText` call carrying the
trimmed content minus any trailing newline marker, and the insertion is
followed by exactly one Enter key tap (key-down then key-up) if and only if
the trimmed content ends with the escaped two-character backslash-n
sequence; the trimmed content can never end with a literal `'\n'` (the trim
already removed it), so a literal trailing newline in the raw content
triggers no Enter tap. -/
theorem handleType_spec (raw : String) (h : ¬ jsTrim raw = "") :
    strEndsWith (jsTrim raw) "\n" = false ∧
    handleType (some raw) =
      Ev.insertText (stripSuffix1 (stripSuffix1 (jsTrim raw) "\\n") "\n") ::
        (if strEndsWith (jsTrim raw) "\\n" then
          [Ev.sleep 50, Ev.keyDown "Enter" "Enter" 13 0 [], Ev.sleep 50,
           Ev.keyUp "Enter" "Enter" 13 0, Ev.sleep 2000]
        else []) := by
  have hnl := jsTrim_not_newline raw
  refine ⟨hnl, ?_⟩
  unfold handleType
  simp [h, hnl, keyTap, enterKeyDef]

/-- C2 witness: an escaped trailing newline marker yields the insertion
followed by the Enter tap. -/
theorem handleType_spec_witness :
    handleType (some "hello\\n") =
      [Ev.insertText "hello", Ev.sleep 50,
       Ev.keyDown "Enter" "Enter" 13 0 [], Ev.sleep 50,
       Ev.keyUp "Enter" "Enter" 13 0, Ev.sleep 2000] := by
  have h := handleType_spec "hello\\n" (by decide)
  rw [h.2]
  decide

/-! ## C3: hotkey decomposition -/

/-- When every token resolves in the key table, the resolution loop returns
the `filterMap` of the table and no warnings. -/
lemma resolveKeys_all_some (isMac : Bool) (ks : List String)
    (h : ∀ k ∈ ks, (KEY_DEFS isMac (lowerStr k)).isSome) :
    resolveKeys isMac ks =
      (ks.filterMap fun k => KEY_DEFS isMac (lowerStr k), []) := by
  induction ks with
  | nil => rfl
  | cons k t ih =>
    obtain ⟨d, hd⟩ :=
      Option.isSome_iff_exists.mp (h k (List.mem_cons_self k t))
    have ht := ih fun x hx => h x (List.mem_cons_of_mem k hx)
    simp [resolveKeys, hd, ht, List.filterMap_cons]

/-- Counting key events over a map whose image is all key events. -/
lemma countP_map_all_true {α : Type} (f : α → Ev) (l : List α)
    (h : ∀ a, Ev.isKeyEvent (f a) = true) :
    (l.map f).countP Ev.isKeyEvent = l.length := by
  induction l with
  | nil => rfl
  | cons a t ih => simp [List.countP_cons, h a, ih]

/-- Counting key events over a flattened map with a constant per-element
count. -/
lemma countP_flatten_const {α : Type} (f : α → List Ev) (l : List α) (n : Nat)
    (h : ∀ a, (f a).countP Ev.isKeyEvent = n) :
    ((l.map f).flatten).countP Ev.isKeyEvent = n * l.length := by
  induction l with
  | nil => simp
  | cons a t ih =>
    simp only [List.map_cons, List.flatten_cons, List.countP_append, h a, ih,
      List.length_cons, Nat.mul_succ]
    omega

/-- The press/tap/release event shape dispatches `2·|nonModifiers| +
2·|modifiers|` key events. -/
lemma countP_hotkey_shape (mods nonMods : List KeyDef) (bits : Nat)
    (cmds : List String) :
    (((mods.map fun m => Ev.keyDown m.key m.code m.keyCode bits []) ++
        ((nonMods.map fun k =>
          [Ev.keyDown k.key k.code k.keyCode bits cmds, Ev.sleep 50,
           Ev.keyUp k.key k.code k.keyCode bits]).flatten) ++
        (mods.reverse.map fun m =>
          Ev.keyUp m.key m.code m.keyCode 0)).countP Ev.isKeyEvent) =
      2 * nonMods.length + 2 * mods.length := by
  rw [List.countP_append, List.countP_append,
    countP_map_all_true
      (fun m => Ev.keyDown m.key m.code m.keyCode bits []) mods
      (fun a => rfl),
    countP_flatten_const
      (fun k => [Ev.keyDown k.key k.code k.keyCode bits cmds, Ev.sleep 50,
        Ev.keyUp k.key k.code k.keyCode bits]) nonMods 2 (fun a => rfl),
    countP_map_all_true
      (fun m => Ev.keyUp m.key m.code m.keyCode 0) mods.reverse
      (fun a => rfl),
    List.length_reverse]
  omega

/-- C3: for every multi-key hotkey whose tokens all resolve in the
key-definition table, `handleHotkey` dispatches the modifier key-downs in
listed order (carrying the combined bitmask), then a key-down/key-up pair
per non-modifier key, then the modifier key-ups in reverse listed order,
and the total number of dispatched key events is `2·nonModifiers +
2·modifiers`. -/
theorem hotkey_multi_key_order_count (isMac : Bool) (keyStr : String)
    (defs : List KeyDef)
    (hdefs : defs = (splitKeys (normalizeKeyStr keyStr)).filterMap
      fun k => KEY_DEFS isMac (lowerStr k))
    (hres : ∀ k ∈ splitKeys (normalizeKeyStr keyStr),
      (KEY_DEFS isMac (lowerStr k)).isSome)
    (hlen : 2 ≤ defs.length) :
    handleHotkey isMac (some keyStr) none =
      ((defs.filter (·.isModifier)).map fun m =>
        Ev.keyDown m.key m.code m.keyCode
          ((defs.filter (·.isModifier)).foldl
            (fun acc m' => acc ||| m'.modifierBit) 0) [])
      ++ (((defs.filter fun d => !d.isModifier).map fun k =>
            [Ev.keyDown k.key k.code k.keyCode
               ((defs.filter (·.isModifier)).foldl
                 (fun acc m' => acc ||| m'.modifierBit) 0)
               (match (if isMac then MAC_SHORTCUT_COMMANDS
                   (String.intercalate "+" (defs.map (·.key))) else none) with
                 | some c => [c]
                 | none => []),
             Ev.sleep 50,
             Ev.keyUp k.key k.code k.keyCode
               ((defs.filter (·.isModifier)).foldl
                 (fun acc m' => acc ||| m'.modifierBit) 0)]).flatten)
      ++ ((defs.filter (·.isModifier)).reverse.map fun m =>
            Ev.keyUp m.key m.code m.keyCode 0)
      ++ [Ev.sleep 500] ∧
    (handleHotkey isMac (some keyStr) none).countP Ev.isKeyEvent =
      2 * (defs.filter fun d => !d.isModifier).length +
        2 * (defs.filter (·.isModifier)).length := by
  have hne : ¬ keyStr = "" := by
    intro he
    subst he
    have h0 : splitKeys (normalizeKeyStr "") = [] := rfl
    rw [hdefs, h0] at hlen
    simp at hlen
  have hd0 : ¬ defs = [] := by
    intro he
    rw [he] at hlen
    simp at hlen
  have hd1 : ¬ defs.length = 1 := by omega
  have hempty : defs.isEmpty = false := by
    cases defs with
    | nil => exact absurd rfl hd0
    | cons a t => rfl
  have key : handleHotkey isMac (some keyStr) none =
      multiKeyEvents isMac defs ++ [Ev.sleep 500] := by
    simp only [handleHotkey, jsOrStr, if_neg hne]
    simp only [hotkeyDispatch, resolveKeys_all_some isMac _ hres, ← hdefs,
      hempty, Bool.false_eq_true, if_false, if_neg hd1, List.nil_append]
  constructor
  · rw [key]
    simp only [multiKeyEvents, List.append_assoc]
  · rw [key, List.countP_append]
    simp only [multiKeyEvents]
    rw [countP_hotkey_shape]
    simp [Ev.isKeyEvent]

/-- C3 witness: `ctrl+shift+z` on the non-mac platform dispatches six key
events. -/
theorem hotkey_multi_key_order_count_witness :
    (handleHotkey false (some "ctrl+shift+z") none).countP Ev.isKeyEvent =
      6 := by
  have h := hotkey_multi_key_order_count false "ctrl+shift+z"
    [⟨"Control", "ControlLeft", 17, true, 2⟩,
     ⟨"Shift", "ShiftLeft", 16, true, 8⟩,
     ⟨"z", "KeyZ", 90, false, 0⟩]
    (by decide) (by decide) (by decide)
  rw [h.2]
  decide

/-! ## C4: missing required inputs -/

/-- On the fast path `ensureAttached` issues no protocol call and keeps the
state. -/
lemma ensureAttached_fast (avail : List WC) (st : EmbState)
    (h : attachedFast st = true) :
    ensureAttached avail st = (.ok st, []) := by
  unfold attachedFast at h
  unfold ensureAttached
  cases hwc : st.wc with
  | none => rw [hwc] at h; cases h
  | some wc =>
    rw [hwc] at h
    simp only [Bool.and_eq_true, Bool.not_eq_true'] at h
    simp [h.1, h.2]

/-- `getScaleFactor` issues at most the device-pixel-ratio query. -/
lemma getScaleFactor_evs (env : EmbEnv) (st : EmbState) :
    (getScaleFactor env st).2.2 = [] ∨
    (getScaleFactor env st).2.2 = [Ev.runtimeEval "window.devicePixelRatio"] := by
  unfold getScaleFactor getScaleFactorEval
  rcases st.deviceScaleFactor with _ | q
  · rcases env.dprResult with _ | r
    · simp
    · by_cases hr : 0 < r <;> simp [hr]
  · by_cases hq : q ≠ 0
    · simp [hq]
    · rcases env.dprResult with _ | r
      · simp [hq]
      · by_cases hr : 0 < r <;> simp [hq, hr]

/-- C4 counterexample: a `type` action with no content performs no input
dispatch and resolves normally, but logs no warning — contradicting the
claim that a missing required field logs a warning. -/
theorem execute_missing_content_no_warning :
    (execute false parseBoxToScreenCoords egEnv egState
      ⟨"type", {}, 1280, 720⟩).2.countP Ev.isInputDispatch = 0 ∧
    (execute false parseBoxToScreenCoords egEnv egState
      ⟨"type", {}, 1280, 720⟩).2.countP Ev.isWarn = 0 ∧
    (execute false parseBoxToScreenCoords egEnv egState
      ⟨"type", {}, 1280, 720⟩).1 =
      Except.ok (egState, ⟨none, none⟩) := by
  refine ⟨by decide, by decide, by rfl⟩

/-- C4 (amended): for every supported action type with a missing required
inputs field (click family without `start_box`, type without `content`,
drag without either box, hotkey without `key`/`hotkey`, press/release
without `key`, navigate without `content`), `execute` performs no
input-dispatch protocol call and returns without throwing; contrary to the
claim, no warning is logged on these silent-skip paths (warnings are
reserved for unsupported action types, unknown key tokens, bad scroll
directions and unsafe URLs). -/
theorem execute_missing_inputs_noop (isMac : Bool) (parseBox : BoxParser)
    (env : EmbEnv) (st : EmbState) (w h : ℚ)
    (hfast : attachedFast st = true)
    (hbox : parseBox "" w h = (none, none)) :
    (∀ inputs : ActionInputs, inputs.start_box = none →
      execNoOp isMac parseBox env st ⟨"click", inputs, w, h⟩ ∧
      execNoOp isMac parseBox env st ⟨"left_click", inputs, w, h⟩ ∧
      execNoOp isMac parseBox env st ⟨"left_single", inputs, w, h⟩ ∧
      execNoOp isMac parseBox env st ⟨"double_click", inputs, w, h⟩ ∧
      execNoOp isMac parseBox env st ⟨"left_double", inputs, w, h⟩ ∧
      execNoOp isMac parseBox env st ⟨"right_click", inputs, w, h⟩ ∧
      execNoOp isMac parseBox env st ⟨"right_single", inputs, w, h⟩) ∧
    (∀ inputs : ActionInputs, inputs.content = none →
      execNoOp isMac parseBox env st ⟨"type", inputs, w, h⟩) ∧
    (∀ inputs : ActionInputs,
      inputs.start_box = none ∨ inputs.end_box = none →
      execNoOp isMac parseBox env st ⟨"drag", inputs, w, h⟩) ∧
    (∀ inputs : ActionInputs, inputs.key = none → inputs.hotkey = none →
      execNoOp isMac parseBox env st ⟨"hotkey", inputs, w, h⟩) ∧
    (∀ inputs : ActionInputs, inputs.key = none →
      execNoOp isMac parseBox env st ⟨"press", inputs, w, h⟩ ∧
      execNoOp isMac parseBox env st ⟨"release", inputs, w, h⟩) ∧
    (∀ inputs : ActionInputs, inputs.content = none →
      execNoOp isMac parseBox env st ⟨"navigate", inputs, w, h⟩) := by
  have hevs := getScaleFactor_evs env st
  refine ⟨fun inputs hmiss => ?_, fun inputs hmiss => ?_,
    fun inputs hmiss => ?_, fun inputs hk hh => ?_, fun inputs hk => ?_,
    fun inputs hmiss => ?_⟩
  · refine ⟨?_, ?_, ?_, ?_, ?_, ?_, ?_⟩ <;>
      (unfold execNoOp
       simp only [execute, ensureAttached_fast env.avail st hfast]
       rcases hevs with he | he <;>
         simp [he, executeBody, hmiss, hbox, List.countP_cons,
           List.countP_append, Ev.isInputDispatch, Ev.isWarn])
  · unfold execNoOp
    simp only [execute, ensureAttached_fast env.avail st hfast]
    rcases hevs with he | he <;>
      simp [he, executeBody, handleType, hmiss, hbox, List.countP_cons,
        List.countP_append, Ev.isInputDispatch, Ev.isWarn]
  · unfold execNoOp
    simp only [execute, ensureAttached_fast env.avail st hfast]
    rcases hmiss with hmiss | hmiss <;> rcases hevs with he | he <;>
      simp [he, executeBody, handleDrag, hmiss, hbox, List.countP_cons,
        List.countP_append, Ev.isInputDispatch, Ev.isWarn]
  · unfold execNoOp
    simp only [execute, ensureAttached_fast env.avail st hfast]
    rcases hevs with he | he <;>
      simp [he, executeBody, handleHotkey, jsOrStr, hk, hh, hbox,
        List.countP_cons, List.countP_append, Ev.isInputDispatch, Ev.isWarn]
  · refine ⟨?_, ?_⟩ <;>
      (unfold execNoOp
       simp only [execute, ensureAttached_fast env.avail st hfast]
       rcases hevs with he | he <;>
         simp [he, executeBody, handleKeyAction, hk, hbox,
           List.countP_cons, List.countP_append, Ev.isInputDispatch,
           Ev.isWarn])
  · unfold execNoOp
    simp only [execute, ensureAttached_fast env.avail st hfast]
    rcases hevs with he | he <;>
      simp [he, executeBody, hmiss, hbox, List.countP_cons,
        List.countP_append, Ev.isInputDispatch, Ev.isWarn]

/-- C4 witness: the amended theorem applied to a concrete type action with
no content. -/
theorem execute_missing_inputs_noop_witness :
    execNoOp false parseBoxToScreenCoords egEnv egState
      ⟨"type", {}, 1280, 720⟩ := by
  have hth := execute_missing_inputs_noop false parseBoxToScreenCoords
    egEnv egState 1280 720 (by decide) (by rfl)
  exact hth.2.1 {} rfl

/-! ## C5: coordinate scaling -/

/-- Filtering a flattened map whose blocks contain no matching event. -/
lemma filter_flatten_nil {α : Type} (p : Ev → Bool) (f : α → List Ev)
    (l : List α) (h : ∀ a, (f a).filter p = []) :
    ((l.map f).flatten).filter p = [] := by
  induction l with
  | nil => rfl
  | cons a t ih => simp [List.filter_append, h a, ih]

/-- C5: for every action carrying a start box (and, for drag, an end box),
the pointer events the operator dispatches are at the parsed
canonical-resolution coordinates divided by the reported scale factor. -/
theorem pointer_coords_scaled (isMac : Bool) (parseBox : BoxParser)
    (env : EmbEnv) (st : EmbState) (w h x y ex ey : ℚ) (sb eb : String)
    (hfast : attachedFast st = true) :
    (∀ inputs : ActionInputs, inputs.start_box = some sb →
      parseBox sb w h = (some x, some y) →
      ((execute isMac parseBox env st ⟨"click", inputs, w, h⟩).2.filter
          Ev.isMouseEv =
        [Ev.mouseMoved (x / (getScaleFactor env st).1)
           (y / (getScaleFactor env st).1),
         Ev.mousePressed (x / (getScaleFactor env st).1)
           (y / (getScaleFactor env st).1) "left" 1,
         Ev.mouseReleased (x / (getScaleFactor env st).1)
           (y / (getScaleFactor env st).1) "left" 1]) ∧
      (execute isMac parseBox env st ⟨"click", inputs, w, h⟩).1 =
        Except.ok ((getScaleFactor env st).2.1,
          ⟨some (x / (getScaleFactor env st).1),
           some (y / (getScaleFactor env st).1)⟩)) ∧
    (∀ inputs : ActionInputs, inputs.start_box = some sb →
      inputs.end_box = some eb → ¬ sb = "" → ¬ eb = "" →
      parseBox sb w h = (some x, some y) →
      parseBox eb w h = (some ex, some ey) →
      ((execute isMac parseBox env st ⟨"drag", inputs, w, h⟩).2.filter
          Ev.isPressedEv =
        [Ev.mousePressed (x / (getScaleFactor env st).1)
          (y / (getScaleFactor env st).1) "left" 1]) ∧
      ((execute isMac parseBox env st ⟨"drag", inputs, w, h⟩).2.filter
          Ev.isReleasedEv =
        [Ev.mouseReleased (ex / (getScaleFactor env st).1)
          (ey / (getScaleFactor env st).1) "left" 1])) := by
  have hevs := getScaleFactor_evs env st
  constructor
  · intro inputs hsb hpb
    simp only [execute, ensureAttached_fast env.avail st hfast]
    rcases hevs with he | he <;>
      simp [he, executeBody, mouseClickEvs, hsb, hpb, List.filter_append,
        Ev.isMouseEv]
  · intro inputs hsb heb hsbne hebne hpb hpe
    simp only [execute, ensureAttached_fast env.avail st hfast]
    have hint1 := filter_flatten_nil Ev.isPressedEv
      (fun i : Nat =>
        [Ev.mouseMoved
          (x / (getScaleFactor env st).1 +
            (ex / (getScaleFactor env st).1 - x / (getScaleFactor env st).1) *
              ((i : ℚ) + 1) / 10)
          (y / (getScaleFactor env st).1 +
            (ey / (getScaleFactor env st).1 - y / (getScaleFactor env st).1) *
              ((i : ℚ) + 1) / 10), Ev.sleep 30])
      (List.range 10) (fun a => rfl)
    have hint2 := filter_flatten_nil Ev.isReleasedEv
      (fun i : Nat =>
        [Ev.mouseMoved
          (x / (getScaleFactor env st).1 +
            (ex / (getScaleFactor env st).1 - x / (getScaleFactor env st).1) *
              ((i : ℚ) + 1) / 10)
          (y / (getScaleFactor env st).1 +
            (ey / (getScaleFactor env st).1 - y / (getScaleFactor env st).1) *
              ((i : ℚ) + 1) / 10), Ev.sleep 30])
      (List.range 10) (fun a => rfl)
    rcases hevs with he | he <;>
      simp [he, executeBody, handleDrag, hsb, heb, hsbne, hebne, hpb, hpe,
        List.filter_append, hint1, hint2, Ev.isPressedEv, Ev.isReleasedEv]

/-- C5 witness: a concrete click whose box parses to `(128000, 144000)`,
with cached scale factor 1. -/
theorem pointer_coords_scaled_witness :
    (execute false (fun _ _ _ => (some 128000, some 144000)) egEnv egState
      ⟨"click", { start_box := some "[100, 200]" }, 1280, 720⟩).2.filter
        Ev.isMouseEv =
      [Ev.mouseMoved (128000 / (getScaleFactor egEnv egState).1)
         (144000 / (getScaleFactor egEnv egState).1),
       Ev.mousePressed (128000 / (getScaleFactor egEnv egState).1)
         (144000 / (getScaleFactor egEnv egState).1) "left" 1,
       Ev.mouseReleased (128000 / (getScaleFactor egEnv egState).1)
         (144000 / (getScaleFactor egEnv egState).1) "left" 1] :=
  ((pointer_coords_scaled false (fun _ _ _ => (some 128000, some 144000))
    egEnv egState 1280 720 128000 144000 0 0 "[100, 200]" "" (by decide)).1
    { start_box := some "[100, 200]" } rfl rfl).1

/-! ## C6: idempotence of ensureAttached -/

/-- A successful `attachFresh` sets the flag and the canonical scale factor
and issues exactly one attach call. -/
lemma attachFresh_ok (st : EmbState) (wc : WC) (st' : EmbState)
    (evs : List Ev) (h : attachFresh st wc = (Except.ok st', evs)) :
    st' = { st with debuggerAttached := true, deviceScaleFactor := some 1 } ∧
    evs.countP Ev.isAttachCall = 1 := by
  unfold attachFresh at h
  by_cases ht : wc.attachThrows = true
  · simp [ht] at h
  · simp only [Bool.not_eq_true] at ht
    simp only [ht, Bool.false_eq_true, if_false, Prod.mk.injEq,
      Except.ok.injEq] at h
    obtain ⟨h1, h2⟩ := h
    subst h1
    subst h2
    refine ⟨rfl, ?_⟩
    by_cases hd : wc.debuggerIsAttached = true <;>
      simp [hd, Ev.isAttachCall, List.countP_cons, List.countP_append]

/-- A successful reconnect leaves a live webview bound, the flag set, and
exactly one attach call issued. -/
lemma ensureReconnect_ok (avail : List WC) (st st' : EmbState)
    (evs : List Ev) (h : ensureReconnect avail st = (Except.ok st', evs)) :
    st'.debuggerAttached = true ∧
    (∃ w, st'.wc = some w ∧ w.destroyed = false) ∧
    evs.countP Ev.isAttachCall = 1 := by
  unfold ensureReconnect at h
  cases hf : avail.find? fun w => w.kind = "webview" && !w.destroyed with
  | none => rw [hf] at h; cases h
  | some w =>
    simp only [hf] at h
    rcases hp : attachFresh { st with wc := some w, debuggerAttached := false } w
      with ⟨r, evs2⟩
    rw [hp] at h
    simp only [Prod.mk.injEq] at h
    obtain ⟨h1, h2⟩ := h
    rw [h1] at hp
    obtain ⟨hst, hcount⟩ := attachFresh_ok _ w st' evs2 hp
    have hwp := List.find?_some hf
    simp only [Bool.and_eq_true, Bool.not_eq_true'] at hwp
    subst hst
    refine ⟨rfl, ⟨w, rfl, hwp.2⟩, ?_⟩
    rw [← h2]
    simpa [Ev.isAttachCall, List.countP_cons] using hcount

/-- C6 counterexample: with a webContents whose debugger attach throws, two
consecutive `ensureAttached` calls (no intervening detach call, the
webContents never destroyed) issue two debugger-attach protocol calls,
contradicting the claimed "at most one attach call in total". -/
theorem ensureAttached_twice_counterexample :
    ((ensureAttached [] failState).2 ++ (ensureAttached [] failState).2).countP
      Ev.isAttachCall = 2 ∧
    ((ensureAttached [] failState).2 ++ (ensureAttached [] failState).2).countP
      Ev.isDetachCall = 0 ∧
    failWC.destroyed = false ∧
    (ensureAttached [] failState).1 =
      Except.error "[EmbeddedBrowserOperator] Cannot re-attach debugger" := by
  refine ⟨by decide, by decide, rfl, by rfl⟩

/-- C6 (amended): when a call to `ensureAttached` returns successfully, it
has issued at most one debugger-attach protocol call, and — with no
intervening detach or webContents destruction — an immediately following
call is the no-op fast path issuing no protocol call at all; in particular,
a state whose webContents is alive with the debugger flag set returns
immediately with an empty trace.  (A call that throws leaves the flag down,
so a later call retries the attach: two failing calls issue two attach
calls.) -/
theorem ensureAttached_idempotent (avail : List WC) (st st' : EmbState)
    (evs : List Ev) (h : ensureAttached avail st = (Except.ok st', evs)) :
    evs.countP Ev.isAttachCall ≤ 1 ∧
    ensureAttached avail st' = (Except.ok st', []) ∧
    (attachedFast st = true → st' = st ∧ evs = []) := by
  unfold ensureAttached at h
  cases hwc : st.wc with
  | none =>
    simp only [hwc] at h
    obtain ⟨hflag, ⟨w, hw, hwd⟩, hcount⟩ :=
      ensureReconnect_ok avail st st' evs h
    refine ⟨le_of_eq hcount, ?_, ?_⟩
    · unfold ensureAttached
      rw [hw]
      simp [hwd, hflag]
    · intro hf
      simp [attachedFast, hwc] at hf
  | some wc =>
    simp only [hwc] at h
    by_cases hcond : (!wc.destroyed && st.debuggerAttached) = true
    · rw [if_pos hcond] at h
      simp only [Prod.mk.injEq, Except.ok.injEq] at h
      obtain ⟨h1, h2⟩ := h
      subst h1
      subst h2
      refine ⟨by simp, ?_, fun _ => ⟨rfl, rfl⟩⟩
      unfold ensureAttached
      rw [hwc]
      simp [hcond]
    · rw [if_neg hcond] at h
      by_cases hdes : wc.destroyed = true
      · rw [if_neg (by simp [hdes])] at h
        obtain ⟨hflag, ⟨w, hw, hwd⟩, hcount⟩ :=
          ensureReconnect_ok avail st st' evs h
        refine ⟨le_of_eq hcount, ?_, ?_⟩
        · unfold ensureAttached
          rw [hw]
          simp [hwd, hflag]
        · intro hf
          simp [attachedFast, hwc, hdes] at hf
      · simp only [Bool.not_eq_true] at hdes
        rw [if_pos (by simp [hdes])] at h
        obtain ⟨hst, hcount⟩ := attachFresh_ok st wc st' evs h
        refine ⟨le_of_eq hcount, ?_, ?_⟩
        · unfold ensureAttached
          subst hst
          rw [hwc]
          simp [hdes]
        · intro hf
          exfalso
          apply hcond
          simp only [attachedFast, hwc] at hf
          exact hf

/-- C6 witness: after a successful re-attach the follow-up call is a
no-op. -/
theorem ensureAttached_idempotent_witness :
    ensureAttached [] (⟨some egWC, true, some 1⟩ : EmbState) =
      (Except.ok ⟨some egWC, true, some 1⟩, []) := by
  have hth := ensureAttached_idempotent [] ⟨some egWC, false, none⟩
    ⟨some egWC, true, some 1⟩
    [Ev.debuggerAttach,
     Ev.logInfo "[EmbeddedBrowserOperator] Re-attached debugger",
     Ev.setDeviceMetricsOverride BROWSER_VIEWPORT_WIDTH
       BROWSER_VIEWPORT_HEIGHT 1] (by rfl)
  exact hth.2.1

/-! ## C7: bounded connect retry and run abort -/

/-- When no attempt between `attempt` and 10 finds a webview, the search
loop returns `none` after sleeping 500ms between consecutive attempts
(`fuel - 1` sleeps) and issuing no attach call. -/
lemma connectSearchFrom_none (env : ConnEnv) :
    ∀ (fuel attempt : Nat), attempt + fuel = 11 → 1 ≤ attempt →
      (∀ t, attempt ≤ t → t ≤ 10 →
        (env.wcLists t).find? (fun w => w.kind = "webview") = none) →
      (connectSearchFrom env attempt fuel).1 = none ∧
      (connectSearchFrom env attempt fuel).2.countP
        (fun e => e == Ev.sleep 500) = fuel - 1 ∧
      (connectSearchFrom env attempt fuel).2.countP Ev.isAttachCall = 0 := by
  intro fuel
  induction fuel with
  | zero => intro attempt h1 h2 h3; exact ⟨rfl, rfl, rfl⟩
  | succ n ih =>
    intro attempt h1 h2 h3
    have hfind := h3 attempt le_rfl (by omega)
    simp only [connectSearchFrom, hfind]
    by_cases hlt : attempt < 10
    · have hrec := ih (attempt + 1) (by omega) (by omega)
        (fun t ht1 ht2 => h3 t (by omega) ht2)
      simp only [if_pos hlt]
      refine ⟨hrec.1, ?_, ?_⟩
      · simp only [List.countP_append, List.countP_cons, List.countP_nil,
          hrec.2.1]
        simp
        omega
      · simp only [List.countP_append, List.countP_cons, List.countP_nil,
          hrec.2.2]
        simp [Ev.isAttachCall]
    · simp only [if_neg hlt]
      have hn : n = 0 := by omega
      subst hn
      refine ⟨by trivial, ?_, ?_⟩
      · simp
      · simp [Ev.isAttachCall]

/-- C7: `connect` retries the webview search up to 10 times with a fixed
500ms delay and throws when none is found (nine sleeps separate the ten
attempts, and no attach call is ever issued); and when the embedded
operator's connect throws at run start, `runAgent` stores the
connection-failure ERROR state and returns before constructing the agent,
so no agent construction or run step occurs. -/
theorem connect_retry_and_run_abort :
    (∀ env : ConnEnv,
      (∀ t, 1 ≤ t → t ≤ 10 →
        (env.wcLists t).find? (fun w => w.kind = "webview") = none) →
      (connect env).1 = Except.error
        "[EmbeddedBrowserOperator] No webview found after retries. Make sure the browser panel is loaded." ∧
      (connect env).2.countP (fun e => e == Ev.sleep 500) = 9 ∧
      (connect env).2.countP Ev.isAttachCall = 0) ∧
    (∀ (env : RunEnv) (st : AppState), env.operator = .LocalBrowser →
      env.connectOk = false →
      runAgent env st =
        (some { st with status := .ERROR, errorMsg := some connectErrorMsg },
         [REv.connectEmbedded]) ∧
      REv.agentRun ∉ (runAgent env st).2 ∧
      REv.constructAgent ∉ (runAgent env st).2) := by
  constructor
  · intro env h
    have hs := connectSearchFrom_none env 10 1 rfl le_rfl h
    unfold connect
    rcases hres : connectSearchFrom env 1 10 with ⟨o, evs⟩
    rw [hres] at hs
    obtain ⟨ho, hsleep, hatt⟩ := hs
    simp only at ho hsleep hatt
    subst ho
    simp [List.countP_append, List.countP_cons, hsleep, hatt,
      Ev.isAttachCall]
  · intro env st hop hc
    have key : runAgent env st =
        (some { st with status := .ERROR, errorMsg := some connectErrorMsg },
         [REv.connectEmbedded]) := by
      unfold runAgent
      rw [hop, hc]
      simp
    refine ⟨key, ?_, ?_⟩ <;> rw [key] <;> simp

/-- C7 witness: an environment with no webContents at all makes `connect`
throw. -/
theorem connect_retry_and_run_abort_witness :
    (connect ⟨fun _ => []⟩).1 = Except.error
      "[EmbeddedBrowserOperator] No webview found after retries. Make sure the browser panel is loaded." :=
  (connect_retry_and_run_abort.1 ⟨fun _ => []⟩ fun _ _ _ => rfl).1

/-! ## C8: overlay hide/restore pairing -/

/-- The screenshot trace shape is overlay-paired whenever the body contains
no overlay operation. -/
lemma overlayPaired_shot (msg : String) (ms : Nat) (body : List NEv)
    (hb1 : NEv.hideOverlays ∉ body) (hb2 : NEv.restoreOverlays ∉ body) :
    overlayPaired ([NEv.logInfoN msg, NEv.hideOverlays, NEv.sleepN ms] ++
      body ++ [NEv.restoreOverlays]) :=
  ⟨[NEv.logInfoN msg], NEv.sleepN ms :: body, by simp, by simp, by simp,
   by simp [hb1], by simp [hb2]⟩

/-- The execute trace shape is overlay-paired whenever the body contains no
overlay operation. -/
lemma overlayPaired_exec (ms : Nat) (body : List NEv)
    (hb1 : NEv.hideOverlays ∉ body) (hb2 : NEv.restoreOverlays ∉ body) :
    overlayPaired ([NEv.hideOverlays, NEv.sleepN ms] ++ body ++
      [NEv.sleepN 100, NEv.restoreOverlays]) :=
  ⟨[], NEv.sleepN ms :: (body ++ [NEv.sleepN 100]), by simp, by simp,
   by simp, by simp [hb1], by simp [hb2]⟩

/-- C8: every `screenshot` call, and every `execute` call for an action type
that requires overlay hiding, hides the overlays once and restores them
exactly once as the final step of every exit path — normal return, fallback
return, or error propagation — so each restore pairs with the prior hide;
action types that skip overlay handling touch the overlays not at all. -/
theorem overlay_hide_restore_paired :
    (∀ env : NutShotEnv, overlayPaired (nutScreenshot env).2) ∧
    (∀ (env : NutExecEnv) (p : NutExecParams) (clip : String),
      nutNeedsOverlayHide p.action_type = true →
      overlayPaired (nutExecute env p clip).2.2) ∧
    (∀ (env : NutExecEnv) (p : NutExecParams) (clip : String),
      nutNeedsOverlayHide p.action_type = false →
      (nutExecute env p clip).2.2.countP
        (fun e => e == NEv.hideOverlays || e == NEv.restoreOverlays) = 0) := by
  refine ⟨fun env => ?_, fun env p clip hneed => ?_, fun env p clip hneed => ?_⟩
  · rcases hg : env.getSourcesOk with _ | sources
    · simp only [nutScreenshot, hg]
      exact overlayPaired_shot _ _ [NEv.getSources] (by simp) (by simp)
    · rcases hfind : (sources.find? fun s =>
          s.display_id = toString env.primaryDisplayId).orElse
          (fun _ => sources.head?) with _ | src
      · simp only [nutScreenshot, hg, hfind]
        exact overlayPaired_shot _ _
          [NEv.getSources,
           NEv.logErrorN "[screenshot] Primary display source not found",
           NEv.superScreenshot] (by simp) (by simp)
      · simp only [nutScreenshot, hg, hfind]
        exact overlayPaired_shot _ _
          [NEv.getSources, NEv.logInfoN "[screenshot] captured size"]
          (by simp) (by simp)
  · unfold nutExecute
    simp only [hneed, if_true]
    by_cases hb : (p.action_type == "type" && env.isWindows &&
        !(p.content.getD "").isEmpty) = true
    · simp only [hb, if_true]
      by_cases hent : (strEndsWith (jsTrim (p.content.getD "")) "\n" ||
          strEndsWith (jsTrim (p.content.getD "")) "\\n") = true <;>
        [simp only [hent, if_true]; simp only [Bool.not_eq_true] at hent] <;>
        [skip; simp only [hent, Bool.false_eq_true, if_false]] <;>
        (rw [show ∀ a b c : List NEv, a ++ b ++ c ++
          [NEv.sleepN 100, NEv.restoreOverlays] =
          a ++ (b ++ c) ++ [NEv.sleepN 100, NEv.restoreOverlays]
          from fun a b c => by simp [List.append_assoc]]
         exact overlayPaired_exec _ _ (by simp) (by simp))
    · simp only [hb, Bool.false_eq_true, if_false]
      exact overlayPaired_exec _ [NEv.superExecute] (by simp) (by simp)
  · unfold nutExecute
    simp only [hneed, Bool.false_eq_true, if_false]
    by_cases hb : (p.action_type == "type" && env.isWindows &&
        !(p.content.getD "").isEmpty) = true
    · simp only [hb, if_true]
      by_cases hent : (strEndsWith (jsTrim (p.content.getD "")) "\n" ||
          strEndsWith (jsTrim (p.content.getD "")) "\\n") = true <;>
        simp [hent, List.countP_append, List.countP_cons]
    · simp only [hb, Bool.false_eq_true, if_false]
      simp [List.countP_append, List.countP_cons]

/-- C8 witness: a click on the windows local operator hides and restores the
overlays in a paired fashion. -/
theorem overlay_hide_restore_paired_witness :
    overlayPaired (nutExecute ⟨true, true⟩ ⟨"click", none⟩ "x").2.2 :=
  overlay_hide_restore_paired.2.1 ⟨true, true⟩ ⟨"click", none⟩ "x" (by decide)

/-! ## C9: clipboard round-trip on the Windows type path -/

/-- C9: on Windows, a `type` action with truthy content reads the clipboard
before any write, writes the stripped content, pastes, writes the original
text back, and leaves the clipboard equal to its value before the action. -/
theorem clipboard_roundtrip (env : NutExecEnv) (p : NutExecParams)
    (clip : String) (hw : env.isWindows = true) (ht : p.action_type = "type")
    (hc : (p.content.getD "").isEmpty = false) :
    (nutExecute env p clip).2.1 = clip ∧
    (nutExecute env p clip).2.2.filter
        (fun e => NEv.isClipRead e || NEv.isClipWrite e) =
      [NEv.clipboardRead,
       NEv.clipboardWrite (stripSuffix1 (stripSuffix1
         (jsTrim (p.content.getD "")) "\\n") "\n"),
       NEv.clipboardWrite clip] := by
  unfold nutExecute
  have hcond : (p.action_type == "type" && env.isWindows &&
      !(p.content.getD "").isEmpty) = true := by
    simp [ht, hw, hc]
  simp only [hcond, if_true]
  refine ⟨by trivial, ?_⟩
  have hnh : nutNeedsOverlayHide p.action_type = true := by
    rw [ht]
    decide
  simp only [hnh, if_true]
  by_cases hent : (strEndsWith (jsTrim (p.content.getD "")) "\n" ||
      strEndsWith (jsTrim (p.content.getD "")) "\\n") = true <;>
    simp [hent, List.filter_append, NEv.isClipRead, NEv.isClipWrite]

/-- C9 witness: a concrete Windows type action restores the original
clipboard text. -/
theorem clipboard_roundtrip_witness :
    (nutExecute ⟨true, true⟩ ⟨"type", some "hi\\n"⟩ "original").2.1 =
      "original" :=
  (clipboard_roundtrip ⟨true, true⟩ ⟨"type", some "hi\\n"⟩ "original"
    rfl rfl (by decide)).1

/-! ## C10: attachments cleared after the agent run -/

/-- C10: whenever `runAgent` reaches the agent-run invocation, the
attachments in the final state are empty — both when the run resolves and
when it rejects. -/
theorem attachments_cleared (env : RunEnv) (st : AppState)
    (h : REv.agentRun ∈ (runAgent env st).2) :
    ∃ st', (runAgent env st).1 = some st' ∧ st'.attachments = [] := by
  cases hop : env.operator with
  | LocalComputer =>
    simp only [runAgent, hop, runAgentWithOperator]
    exact ⟨_, rfl, rfl⟩
  | LocalBrowser =>
    by_cases hc : env.connectOk = true
    · simp only [runAgent, hop, hc, if_true, runAgentWithOperator]
      exact ⟨_, rfl, rfl⟩
    · exfalso
      rw [Bool.not_eq_true] at hc
      simp [runAgent, hop, hc] at h
  | RemoteComputer =>
    by_cases hr : env.remoteCreateOk = true
    · by_cases hp : env.proxyOk = true
      · simp only [runAgent, hop, hr, hp, Bool.not_true,
          Bool.false_eq_true, if_false, runAgentWithOperator]
        exact ⟨_, rfl, rfl⟩
      · exfalso
        rw [Bool.not_eq_true] at hp
        simp [runAgent, hop, hr, hp] at h
    · exfalso
      rw [Bool.not_eq_true] at hr
      simp [runAgent, hop, hr] at h
  | RemoteBrowser =>
    by_cases hr : env.remoteCreateOk = true
    · by_cases hp : env.proxyOk = true
      · simp only [runAgent, hop, hr, hp, Bool.not_true,
          Bool.false_eq_true, if_false, runAgentWithOperator]
        exact ⟨_, rfl, rfl⟩
      · exfalso
        rw [Bool.not_eq_true] at hp
        simp [runAgent, hop, hr, hp] at h
    · exfalso
      rw [Bool.not_eq_true] at hr
      simp [runAgent, hop, hr] at h

/-- C10 witness: a local-computer run with a pending attachment ends with an
empty attachments list. -/
theorem attachments_cleared_witness :
    ∃ st', (runAgent ⟨.LocalComputer, true, true, true, none⟩
      ⟨.INIT, none, [⟨"text", "notes.txt", "hello"⟩]⟩).1 = some st' ∧
      st'.attachments = [] :=
  attachments_cleared ⟨.LocalComputer, true, true, true, none⟩
    ⟨.INIT, none, [⟨"text", "notes.txt", "hello"⟩]⟩ (by decide)

end HeyWorkly
